import Mathlib

/-!
# TrackedDetection: a shallow embedding of `src/TrackedDetection.cpp`

The C++ class `doppia::TrackedDetection` keeps the history of one tracked
object.  Each method is embedded as a function on an explicit state record.

Conventions of the embedding

* `float` values (scores, box coordinates) are exact rationals `ℚ`, and `float`
  arithmetic is exact, except where a result decides an integer outcome: the
  height tested by `get_max_extrapolation_length` (line 103) is rounded to
  single precision by `round_to_float`.
* `int` counters are `Int`; increments are exact (signed overflow is undefined
  in C++ and is not modelled).  Conversions between `size_t` and `int` are
  explicit: `to_size_t` reduces modulo `2^64`, `to_int` wraps to 32 bits.
* `std::vector` is `List`; `operator[]` and `back()` outside the vector, and an
  Eigen vector of negative size, are undefined in C++ and give a `Fault`.
* A mutator returns the outcome of the call together with the state the object
  is left in, so a fault reports the state at the point where the call stopped.
-/

namespace doppia

/-! ## Data model -/

/-- Modelled from the spec: the point type of the bounding box; its declaration
lives in a header that is not part of the sources. -/
structure Point where
  x : ℚ
  y : ℚ
deriving DecidableEq

/-- Modelled from the spec: `rectangle_t`, an axis-aligned rectangle given by
`min_corner` and `max_corner` (declared in a header that is not part of the
sources). -/
structure Rectangle where
  min_corner : Point
  max_corner : Point
deriving DecidableEq

/-- Modelled from the spec: `detection_t`, one observation
`{object_class, bounding_box, score}` (declared in a header that is not part of
the sources).  The class enumeration is represented by its ordinal. -/
structure Detection where
  object_class : Nat
  bounding_box : Rectangle
  score : ℚ
deriving DecidableEq

/-- Modelled from the spec: the data members of the class `TrackedDetection`
(declared in a header that is not part of the sources), under the names and
with the types used by `TrackedDetection.cpp`: `int` counters, `float` score. -/
structure TrackedDetection where
  object_class : Nat
  track_id : Int
  max_extrapolation_length : Int
  current_bounding_box : Rectangle
  detections_in_time : List Detection
  max_detection_score : ℚ
  num_extrapolated_detections : Int
  num_true_detections_in_time : Int
  num_consecutive_detections : Int
  max_consecutive_detections : Int
deriving DecidableEq

/-- Ways in which a call can stop without completing. -/
inductive Fault where
  | assertion_failed
  | undefined_behaviour
deriving DecidableEq

/-! ## Machine integers and vector access -/

/-- Value of an integer after conversion to the 32-bit C++ `int`: a value of
magnitude below `2^31` is representable and unchanged, any other value wraps
modulo `2^32` into `[-2^31, 2^31)`. -/
def to_int (n : Int) : Int :=
  if n.natAbs < 2 ^ 31 then n else (n + 2 ^ 31) % 2 ^ 32 - 2 ^ 31

/-- Value of an integer after conversion to the 64-bit C++ `size_t`: a value in
`[0, 2^64)` is unchanged, any other value is reduced modulo `2^64`. -/
def to_size_t (n : Int) : Int :=
  if 0 ≤ n ∧ n.natAbs < 2 ^ 64 then n else n % 2 ^ 64

/-- Element access `v[i]` with an `int` index: defined only inside the vector. -/
def vector_at {α : Type} (v : List α) (i : Int) : Option α :=
  if 0 ≤ i then v[i.toNat]? else none

/-! ## Geometry expressions repeated in the source -/

/-- Expression `(bbox.max_corner().x() + bbox.min_corner().x()) / 2.0`. -/
def center_x (bbox : Rectangle) : ℚ := (bbox.max_corner.x + bbox.min_corner.x) / 2

/-- Expression `(bbox.max_corner().y() + bbox.min_corner().y()) / 2.0`. -/
def center_y (bbox : Rectangle) : ℚ := (bbox.max_corner.y + bbox.min_corner.y) / 2

/-- Expression `bbox.max_corner().y() - bbox.min_corner().y()`. -/
def height (bbox : Rectangle) : ℚ := bbox.max_corner.y - bbox.min_corner.y

/-- Horizontal extent `max_corner().x() - min_corner().x()` of a box. -/
def width (bbox : Rectangle) : ℚ := bbox.max_corner.x - bbox.min_corner.x

/-! ## Constructor and accessors -/

/-- The constructor `TrackedDetection::TrackedDetection(id, detection,
max_extrapolation_length_)`, lines 12-28. -/
def TrackedDetection.construct (id : Int) (detection : Detection)
    (max_extrapolation_length_ : Int) : TrackedDetection :=
  { object_class := detection.object_class
    track_id := id
    max_extrapolation_length := max_extrapolation_length_
    current_bounding_box := detection.bounding_box
    detections_in_time := [detection]
    max_detection_score := detection.score
    num_extrapolated_detections := 0
    num_true_detections_in_time := 0
    num_consecutive_detections := 0
    max_consecutive_detections := 0 }

/-- Accessor `get_extrapolation_length`, lines 118-121. -/
def TrackedDetection.get_extrapolation_length (self : TrackedDetection) : Int :=
  self.num_extrapolated_detections

/-- Accessor `get_length`, lines 124-127. -/
def TrackedDetection.get_length (self : TrackedDetection) : Nat :=
  self.detections_in_time.length

/-- Accessor `get_current_detection`, lines 130-133: `back()` of the history. -/
def TrackedDetection.get_current_detection (self : TrackedDetection) : Except Fault Detection :=
  match self.detections_in_time.getLast? with
  | none => .error .undefined_behaviour
  | some d => .ok d

/-- Accessor `get_current_bounding_box`, lines 136-139. -/
def TrackedDetection.get_current_bounding_box (self : TrackedDetection) : Rectangle :=
  self.current_bounding_box

/-- Accessor `get_detections_in_time`, lines 142-145. -/
def TrackedDetection.get_detections_in_time (self : TrackedDetection) : List Detection :=
  self.detections_in_time

/-- Accessor `get_id`, lines 148-151. -/
def TrackedDetection.get_id (self : TrackedDetection) : Int :=
  self.track_id

/-! ## Confirmation handler -/

/-- Assignment through `detection_t &last_detection = detections_in_time.back()`:
the score of the last entry is replaced by `f` of its value. -/
def update_back_score (v : List Detection) (f : ℚ → ℚ) : List Detection :=
  match v.getLast? with
  | none => v
  | some last => v.dropLast ++ [{ last with score := f last.score }]

/-- Method `add_matched_detection`, lines 37-68.  The assertion is the first
statement; the assignments follow in source order. -/
def TrackedDetection.add_matched_detection (self : TrackedDetection) (detection : Detection) :
    Except Fault Unit × TrackedDetection :=
  -- assert(detection.object_class == this->object_class);
  if detection.object_class ≠ self.object_class then (.error .assertion_failed, self) else
  -- current_bounding_box = detection.bounding_box;
  let s1 := { self with current_bounding_box := detection.bounding_box }
  -- max_detection_score = std::max<float>(max_detection_score, detection.score);
  let s2 := { s1 with max_detection_score := max s1.max_detection_score detection.score }
  -- detections_in_time.push_back(detection);
  let s3 := { s2 with detections_in_time := s2.detections_in_time ++ [detection] }
  -- num_true_detections_in_time += 1;
  let s4 := { s3 with num_true_detections_in_time := s3.num_true_detections_in_time + 1 }
  -- last_detection.score = max_detection_score;
  let s5 := { s4 with
    detections_in_time := update_back_score s4.detections_in_time
      (fun _ => s4.max_detection_score) }
  -- last_detection.score *= static_cast<float>(num_true_detections_in_time) / detections_in_time.size();
  let s6 := { s5 with
    detections_in_time := update_back_score s5.detections_in_time
      (fun score => score * ((s5.num_true_detections_in_time : ℚ) /
        (s5.detections_in_time.length : ℚ))) }
  -- last_detection.score *= 2;
  let s7 := { s6 with
    detections_in_time := update_back_score s6.detections_in_time (fun score => score * 2) }
  -- num_extrapolated_detections = 0;
  let s8 := { s7 with num_extrapolated_detections := 0 }
  -- num_consecutive_detections += 1;
  let s9 := { s8 with num_consecutive_detections := s8.num_consecutive_detections + 1 }
  -- max_consecutive_detections = std::max(max_consecutive_detections, num_consecutive_detections);
  let s10 := { s9 with
    max_consecutive_detections := max s9.max_consecutive_detections s9.num_consecutive_detections }
  (.ok (), s10)

/-! ## Single-precision rounding -/

/-- Rounding of a rational to the nearest integer, ties to the even one. -/
def round_half_even (x : ℚ) : Int :=
  let f := ⌊x⌋
  if x - (f : ℚ) < 1 / 2 then f
  else if 1 / 2 < x - (f : ℚ) then f + 1
  else if f % 2 = 0 then f else f + 1

/-- Binary exponent that fixes the spacing of the `float` values around `q`:
`⌊log2 |q|⌋`, and `-126` in the subnormal range (and at 0). -/
def float_exponent (q : ℚ) : Int := max (Int.log 2 |q|) (-126)

/-- The value with a 24-bit significand nearest to `q` (ties to even): the
multiple of `2 ^ (float_exponent q - 23)` nearest to `q`. -/
def nearest_float (q : ℚ) : ℚ :=
  (round_half_even (q / (2 : ℚ) ^ (float_exponent q - 23)) : ℚ)
    * (2 : ℚ) ^ (float_exponent q - 23)

/-- A value of the C++ type `float` (IEEE binary32) that arithmetic on finite
operands can produce: a finite number or an infinity. -/
inductive FloatValue where
  | finite (value : ℚ)
  | infinity (negative : Bool)
deriving DecidableEq

/-- The `float` result of an operation whose exact result is `q`: the nearest
representable value, or an infinity of the sign of `q` when that value reaches
`2^128` in magnitude. -/
def round_to_float (q : ℚ) : FloatValue :=
  if (2 : ℚ) ^ 128 ≤ |nearest_float q| then .infinity (decide (q < 0))
  else .finite (nearest_float q)

/-- Comparison `x > y` of a `float` with a finite `float` `y`. -/
def FloatValue.gt (x : FloatValue) (y : ℚ) : Bool :=
  match x with
  | .finite value => decide (value > y)
  | .infinity negative => !negative

/-! ## Reliability gate -/

/-- Method `get_max_extrapolation_length`, lines 93-116. -/
def TrackedDetection.get_max_extrapolation_length (self : TrackedDetection) : Int :=
  let num_detections_for_reliable_track : Int := 30
  -- std::max<int>(1, detections_in_time.size() - num_extrapolated_detections)
  let num_detections_in_time : Int :=
    max 1 (to_int (to_size_t
      ((self.detections_in_time.length : Int) - to_size_t self.num_extrapolated_detections)))
  let has_enough_detections : Bool :=
    decide (num_detections_in_time > num_detections_for_reliable_track)
  -- const float window_height = (max_corner().y() - min_corner().y());
  let window_height : FloatValue :=
    round_to_float
      (self.current_bounding_box.max_corner.y - self.current_bounding_box.min_corner.y)
  let minimum_reliable_track_height : Int := 128
  -- window_height > minimum_reliable_track_height, the int converted to float
  let is_high_enough : Bool := window_height.gt (minimum_reliable_track_height : ℚ)
  if has_enough_detections && is_high_enough then
    self.max_extrapolation_length
  else
    0

/-! ## Motion extrapolator -/

/-- Body of the loop of lines 178-190 at index `i`: the three differences
between the box at `i` and the `previous_*` values.  -/
def delta_at (detections_in_time : List Detection)
    (previous_center_x previous_center_y previous_height : ℚ) (i : Int) :
    Except Fault (ℚ × ℚ × ℚ) :=
  match vector_at detections_in_time i with
  | none => .error .undefined_behaviour
  | some d =>
    let bbox := d.bounding_box
    let center_x_ : ℚ := (bbox.max_corner.x + bbox.min_corner.x) / 2
    let center_y_ : ℚ := (bbox.max_corner.y + bbox.min_corner.y) / 2
    let height_ : ℚ := bbox.max_corner.y - bbox.min_corner.y
    .ok (center_x_ - previous_center_x, center_y_ - previous_center_y, height_ - previous_height)

/-- The loop `for(int i=start_index; i < num_detections; i+=1)` of lines
178-190, started at index `i` with `remaining` iterations to go.  The
`previous_*` variables are not assigned in the loop body, so every iteration
sees the values computed before the loop. -/
def delta_loop (detections_in_time : List Detection)
    (previous_center_x previous_center_y previous_height : ℚ) (i : Int) :
    (remaining : Nat) → Except Fault (List (ℚ × ℚ × ℚ))
  | 0 => .ok []
  | remaining + 1 =>
    match delta_at detections_in_time previous_center_x previous_center_y previous_height i with
    | .error e => .error e
    | .ok d =>
      match delta_loop detections_in_time previous_center_x previous_center_y previous_height
          (i + 1) remaining with
      | .error e => .error e
      | .ok rest => .ok (d :: rest)

/-- The loop of lines 194-197: `weights(i) = (i+1)/sum_value` for
`i = 0 .. num_deltas - 1`. -/
def weights (num_deltas : Nat) (sum_value : ℚ) : List ℚ :=
  (List.range num_deltas).map (fun i : Nat => ((i : ℚ) + 1) / sum_value)

/-- Eigen `a.dot(b)` on real vectors of equal size. -/
def dot (a b : List ℚ) : ℚ := (List.zipWith (fun u v => u * v) a b).sum

/-- Lines 164-202 of `compute_extrapolated_bounding_box`: the triple
`(x_motion, y_motion, height_motion)`. -/
def TrackedDetection.motion (self : TrackedDetection) : Except Fault (ℚ × ℚ × ℚ) :=
  let max_num_deltas : Int := 10
  let num_detections : Int := to_int (self.detections_in_time.length : Int)
  let num_deltas : Int := min max_num_deltas (num_detections - 1)
  -- Eigen::VectorXf delta_x(num_deltas), ... : the size must not be negative
  if num_deltas < 0 then .error .undefined_behaviour else
  match vector_at self.detections_in_time (num_detections - num_deltas - 1) with
  | none => .error .undefined_behaviour
  | some d0 =>
    let bbox := d0.bounding_box
    let previous_center_x : ℚ := (bbox.max_corner.x + bbox.min_corner.x) / 2
    let previous_center_y : ℚ := (bbox.max_corner.y + bbox.min_corner.y) / 2
    let previous_height : ℚ := bbox.max_corner.y - bbox.min_corner.y
    let start_index : Int := num_detections - num_deltas
    match delta_loop self.detections_in_time previous_center_x previous_center_y previous_height
        start_index (num_detections - start_index).toNat with
    | .error e => .error e
    | .ok deltas =>
      let delta_x := deltas.map (fun d => d.1)
      let delta_y := deltas.map (fun d => d.2.1)
      let delta_height := deltas.map (fun d => d.2.2)
      -- const float sum_value = num_deltas*(num_deltas + 1)/0.5;
      let sum_value : ℚ := ((num_deltas * (num_deltas + 1) : Int) : ℚ) / (1 / 2)
      let weights_ := weights num_deltas.toNat sum_value
      .ok (dot delta_x weights_, dot delta_y weights_, dot delta_height weights_)

/-- The block "obtain extrapolated bounding box" of lines 204-223, applied to
`current_bounding_box` and the three motions. -/
def extrapolated_bbox (bbox : Rectangle) (x_motion y_motion height_motion : ℚ) : Rectangle :=
  let center_x0 : ℚ := (bbox.max_corner.x + bbox.min_corner.x) / 2
  let center_y0 : ℚ := (bbox.max_corner.y + bbox.min_corner.y) / 2
  let height0 : ℚ := bbox.max_corner.y - bbox.min_corner.y
  -- center_x += x_motion; center_y += y_motion; height += height_motion;
  let center_x1 := center_x0 + x_motion
  let center_y1 := center_y0 + y_motion
  let height1 := height0 + height_motion
  -- height = std::max(height, 5.0f);
  let height2 := max height1 5
  -- const float width = height*0.4f;
  let width_ := height2 * (2 / 5)
  { min_corner := { x := center_x1 - width_ / 2, y := center_y1 - height2 / 2 }
    max_corner := { x := center_x1 + width_ / 2, y := center_y1 + height2 / 2 } }

/-- Method `compute_extrapolated_bounding_box`, lines 154-226: the motions of
lines 164-202 followed by the box of lines 204-223. -/
def TrackedDetection.compute_extrapolated_bounding_box (self : TrackedDetection) :
    Except Fault Rectangle :=
  match self.motion with
  | .error e => .error e
  | .ok (x_motion, y_motion, height_motion) =>
    .ok (extrapolated_bbox self.current_bounding_box x_motion y_motion height_motion)

/-- Method `skip_one_detection`, lines 71-90. -/
def TrackedDetection.skip_one_detection (self : TrackedDetection) :
    Except Fault Unit × TrackedDetection :=
  -- extrapolated_detection.bounding_box = compute_extrapolated_bounding_box();
  match self.compute_extrapolated_bounding_box with
  | .error e => (.error e, self)
  | .ok bounding_box =>
    -- current_bounding_box = extrapolated_detection.bounding_box;
    let s1 := { self with current_bounding_box := bounding_box }
    -- const float &last_score = detections_in_time.back().score;
    match s1.detections_in_time.getLast? with
    | none => (.error .undefined_behaviour, s1)
    | some last =>
      let extrapolated_detection : Detection :=
        { object_class := s1.object_class, bounding_box := bounding_box, score := last.score }
      -- detections_in_time.push_back(extrapolated_detection);
      let s2 := { s1 with detections_in_time := s1.detections_in_time ++ [extrapolated_detection] }
      -- num_extrapolated_detections += 1;
      let s3 := { s2 with num_extrapolated_detections := s2.num_extrapolated_detections + 1 }
      -- num_consecutive_detections = 0;
      let s4 := { s3 with num_consecutive_detections := 0 }
      (.ok (), s4)

/-! ## Sequences of calls -/

/-- One call of a mutator by the track manager. -/
inductive Call where
  | add_matched_detection (detection : Detection)
  | skip_one_detection
deriving DecidableEq

/-- Effect of one mutator call. -/
def TrackedDetection.call (self : TrackedDetection) : Call → Except Fault Unit × TrackedDetection
  | .add_matched_detection detection => self.add_matched_detection detection
  | .skip_one_detection => self.skip_one_detection

/-- Effect of a sequence of mutator calls, stopping at the first fault. -/
def TrackedDetection.run (self : TrackedDetection) : List Call → Except Fault Unit × TrackedDetection
  | [] => (.ok (), self)
  | c :: cs =>
    match self.call c with
    | (.ok _, s) => s.run cs
    | (.error e, s) => (.error e, s)

/-- States reachable from the constructor by mutator calls that all complete. -/
def Reachable (t : TrackedDetection) : Prop :=
  ∃ (id : Int) (detection : Detection) (max_extrapolation_length_ : Int) (calls : List Call),
    (TrackedDetection.construct id detection max_extrapolation_length_).run calls = (.ok (), t)

/-! ## Closed forms used in the proofs -/

/-- The three differences the loop body of lines 186-188 stores for one history
entry, given the `previous_*` values. -/
def delta_of (previous_center_x previous_center_y previous_height : ℚ) (d : Detection) :
    ℚ × ℚ × ℚ :=
  (center_x d.bounding_box - previous_center_x, center_y d.bounding_box - previous_center_y,
    height d.bounding_box - previous_height)

/-- Closed form of lines 171-202 for a window made of a base entry and the
entries after it. -/
def motion_of (base : Detection) (rest : List Detection) : ℚ × ℚ × ℚ :=
  let deltas := rest.map
    (delta_of (center_x base.bounding_box) (center_y base.bounding_box) (height base.bounding_box))
  let w := weights rest.length (((rest.length : ℚ) * ((rest.length : ℚ) + 1)) / (1 / 2))
  (dot (deltas.map (fun d => d.1)) w, dot (deltas.map (fun d => d.2.1)) w,
    dot (deltas.map (fun d => d.2.2)) w)

/-- The state `skip_one_detection` leaves behind when the extrapolated box is
`bounding_box` and the last stored score is `last_score`. -/
def skipped (self : TrackedDetection) (bounding_box : Rectangle) (last_score : ℚ) :
    TrackedDetection :=
  { self with
    current_bounding_box := bounding_box
    detections_in_time := self.detections_in_time ++
      [{ object_class := self.object_class, bounding_box := bounding_box, score := last_score }]
    num_extrapolated_detections := self.num_extrapolated_detections + 1
    num_consecutive_detections := 0 }

/-- The score stored by `add_matched_detection` for a detection of score `score`. -/
def reweighted_score (self : TrackedDetection) (score : ℚ) : ℚ :=
  max self.max_detection_score score *
    (((self.num_true_detections_in_time + 1 : Int) : ℚ) /
      ((self.detections_in_time.length + 1 : Nat) : ℚ)) * 2

/-- The state `add_matched_detection` leaves behind for a detection of the
track's class. -/
def matched (self : TrackedDetection) (detection : Detection) : TrackedDetection :=
  { self with
    current_bounding_box := detection.bounding_box
    max_detection_score := max self.max_detection_score detection.score
    detections_in_time := self.detections_in_time ++
      [{ detection with score := reweighted_score self detection.score }]
    num_true_detections_in_time := self.num_true_detections_in_time + 1
    num_extrapolated_detections := 0
    num_consecutive_detections := self.num_consecutive_detections + 1
    max_consecutive_detections :=
      max self.max_consecutive_detections (self.num_consecutive_detections + 1) }

/-! ## Sample data -/

/-- A box given by its four coordinates. -/
def sample_box (x0 y0 x1 y1 : ℚ) : Rectangle :=
  { min_corner := { x := x0, y := y0 }, max_corner := { x := x1, y := y1 } }

/-- A detection of class 1. -/
def sample_detection (bbox : Rectangle) (score : ℚ) : Detection :=
  { object_class := 1, bounding_box := bbox, score := score }

/-- A track of class 1 with three stored entries, two of them matched after
creation, whose best score is 0.8. -/
def sample_track_three : TrackedDetection :=
  { object_class := 1
    track_id := 7
    max_extrapolation_length := 5
    current_bounding_box := sample_box 0 0 40 100
    detections_in_time :=
      [sample_detection (sample_box 0 0 40 100) (4 / 5),
       sample_detection (sample_box 0 0 40 100) (4 / 5),
       sample_detection (sample_box 0 0 40 100) (16 / 15)]
    max_detection_score := 4 / 5
    num_extrapolated_detections := 0
    num_true_detections_in_time := 2
    num_consecutive_detections := 2
    max_consecutive_detections := 2 }

/-- The calls that make the fresh sample track, founded on `(0,0)-(40,100)`,
move 10 to the right per frame: the matched boxes `(10,0)-(50,100)` and
`(20,0)-(60,100)`. -/
def sample_calls_moving : List Call :=
  [Call.add_matched_detection (sample_detection (sample_box 10 0 50 100) (1 / 2)),
   Call.add_matched_detection (sample_detection (sample_box 20 0 60 100) (1 / 2))]

/-- A track of class 1 whose box collapses: founded on `(0,0)-(1640,4100)` and
matched once with `(0,0)-(40,100)`, which gives the height motion `-1000`. -/
def sample_track_shrinking : TrackedDetection :=
  matched (TrackedDetection.construct 7 (sample_detection (sample_box 0 0 1640 4100) (4 / 5)) 5)
    (sample_detection (sample_box 0 0 40 100) (1 / 2))

/-- The fresh sample track: class 1, id 7, budget 5, founded on the box
`(0,0)-(40,100)` with score 0.8. -/
def sample_track_fresh : TrackedDetection :=
  TrackedDetection.construct 7 (sample_detection (sample_box 0 0 40 100) (4 / 5)) 5

/-- One matched detection, 10 to the right of the founding box, then one frame
without a match. -/
def sample_calls_mixed : List Call :=
  [Call.add_matched_detection (sample_detection (sample_box 10 0 50 100) (1 / 2)),
   Call.skip_one_detection]

/-- The state of the fresh sample track after `sample_calls_mixed`. -/
def sample_track_mixed : TrackedDetection :=
  skipped (matched sample_track_fresh (sample_detection (sample_box 10 0 50 100) (1 / 2)))
    (sample_box (25 / 2) 0 (105 / 2) 100) (4 / 5)

/-- The input scores of the matched detections of a call sequence, in call order. -/
def matched_scores : List Call → List ℚ
  | [] => []
  | Call.add_matched_detection detection :: calls => detection.score :: matched_scores calls
  | Call.skip_one_detection :: calls => matched_scores calls

/-- Motion as the specification words it: with `n + 1` boxes `b_0 .. b_n` in the
window, the sum over `i = 1 .. n` of `w_i * (v b_i - v b_(i-1))` with
`w_i = i / (n*(n+1)/0.5)`; each delta is taken between consecutive boxes. -/
def consecutive_pair_motion (v : Rectangle → ℚ) (window : List Rectangle) : ℚ :=
  let n := window.length - 1
  let deltas := List.zipWith (fun previous current => v current - v previous) window window.tail
  dot deltas (weights n (((n : ℚ) * ((n : ℚ) + 1)) / (1 / 2)))

/-- Number of deltas `min(10, size - 1)` taken from a history of `size` entries
(line 167), as a natural number. -/
def num_deltas_of (size : Nat) : Nat := min 10 (size - 1)

/-- The bounding boxes of the motion window: those of the last
`num_deltas + 1` history entries, oldest first. -/
def window_boxes (self : TrackedDetection) : List Rectangle :=
  (self.detections_in_time.drop (self.detections_in_time.length
    - num_deltas_of self.detections_in_time.length - 1)).map (fun e => e.bounding_box)

/-- Closed form of lines 171-202 in terms of bounding boxes only. -/
def motion_of_boxes (base : Rectangle) (rest : List Rectangle) : ℚ × ℚ × ℚ :=
  let w := weights rest.length (((rest.length : ℚ) * ((rest.length : ℚ) + 1)) / (1 / 2))
  (dot (rest.map (fun b => center_x b - center_x base)) w,
    dot (rest.map (fun b => center_y b - center_y base)) w,
    dot (rest.map (fun b => height b - height base)) w)

/-- A track of twelve entries: an old entry followed by eleven equal boxes. -/
def sample_track_long : TrackedDetection :=
  { object_class := 1
    track_id := 7
    max_extrapolation_length := 5
    current_bounding_box := sample_box 0 0 40 100
    detections_in_time :=
      sample_detection (sample_box 500 500 600 900) (4 / 5) ::
        List.replicate 11 (sample_detection (sample_box 0 0 40 100) (4 / 5))
    max_detection_score := 4 / 5
    num_extrapolated_detections := 0
    num_true_detections_in_time := 11
    num_consecutive_detections := 11
    max_consecutive_detections := 11 }

/-- A track of thirteen entries of another class and id, with other scores and
counters and another older history, whose last eleven boxes and current box
are those of `sample_track_long`. -/
def sample_track_longer : TrackedDetection :=
  { object_class := 2
    track_id := 8
    max_extrapolation_length := 0
    current_bounding_box := sample_box 0 0 40 100
    detections_in_time :=
      { object_class := 2, bounding_box := sample_box 1 2 3 4, score := 1 / 3 } ::
      { object_class := 2, bounding_box := sample_box 7 7 9 9, score := 1 / 7 } ::
        List.replicate 11
          { object_class := 2, bounding_box := sample_box 0 0 40 100, score := 1 / 9 }
    max_detection_score := 1 / 3
    num_extrapolated_detections := 3
    num_true_detections_in_time := 4
    num_consecutive_detections := 0
    max_consecutive_detections := 2 }

/-- Counter facts of reachable states: the history is not empty, the counters
are not negative, the matched and the pending extrapolated entries fit into
the history after the founding entry, and the two streak counters exclude each
other. -/
def counters_consistent (t : TrackedDetection) : Prop :=
  1 ≤ t.detections_in_time.length ∧
  0 ≤ t.num_extrapolated_detections ∧
  0 ≤ t.num_true_detections_in_time ∧
  0 ≤ t.num_consecutive_detections ∧
  1 + t.num_true_detections_in_time + t.num_extrapolated_detections
    ≤ (t.detections_in_time.length : Int) ∧
  ((t.detections_in_time.length = 1 ∧ t.num_extrapolated_detections = 0 ∧
      t.num_consecutive_detections = 0) ∨
    (2 ≤ t.detections_in_time.length ∧ t.num_extrapolated_detections = 0 ∧
      0 < t.num_consecutive_detections) ∨
    (2 ≤ t.detections_in_time.length ∧ 0 < t.num_extrapolated_detections ∧
      t.num_consecutive_detections = 0))

/-- One frame without a match on the fresh sample track, then one matched
detection. -/
def sample_calls_skip_match : List Call :=
  [Call.skip_one_detection,
   Call.add_matched_detection (sample_detection (sample_box 10 0 50 100) (1 / 2))]

/-- A fresh track of class 1 founded on the box `(0,0)-(52,130)`, of height 130
and width 52, with budget 5. -/
def sample_track_tall : TrackedDetection :=
  TrackedDetection.construct 7 (sample_detection (sample_box 0 0 52 130) (1 / 2)) 5

/-- One frame without a match, then 29 matched detections of the box
`(0,0)-(52,130)`. -/
def sample_calls_skip_then_matches : List Call :=
  Call.skip_one_detection ::
    (List.replicate 29 (sample_detection (sample_box 0 0 52 130) (1 / 2))).map
      Call.add_matched_detection

/-- A fresh track of class 1 founded on the box `(0,-2^-20)-(52,128)`, whose
exact height `128 + 2^-20` lies less than half a `float` spacing above 128. -/
def sample_track_margin : TrackedDetection :=
  TrackedDetection.construct 7
    (sample_detection (sample_box 0 (-1 / 1048576) 52 128) (1 / 2)) 5

/-- Thirty matched detections of the box `(0,-2^-20)-(52,128)`. -/
def sample_calls_margin : List Call :=
  (List.replicate 30 (sample_detection (sample_box 0 (-1 / 1048576) 52 128) (1 / 2))).map
    Call.add_matched_detection

/-! ## Basic lemmas -/

/-- The conversion to `int` is reduction modulo `2^32` into `[-2^31, 2^31)`. -/
theorem to_int_eq_wrap (n : Int) : to_int n = (n + 2 ^ 31) % 2 ^ 32 - 2 ^ 31 := by
  unfold to_int
  split <;> omega

/-- The conversion to `size_t` is reduction modulo `2^64`. -/
theorem to_size_t_eq_mod (n : Int) : to_size_t n = n % 2 ^ 64 := by
  unfold to_size_t
  split <;> omega

theorem to_int_of_range (n : Int) (h0 : -2 ^ 31 ≤ n) (h1 : n < 2 ^ 31) : to_int n = n := by
  rw [to_int_eq_wrap]
  omega

theorem vector_at_natCast {α : Type} (v : List α) (i : Nat) (h : i < v.length) :
    vector_at v (i : Int) = some v[i] := by
  simp [vector_at, h]

theorem delta_loop_eq (dets : List Detection) (pcx pcy ph : ℚ) :
    ∀ (k i : Nat), i + k ≤ dets.length →
      delta_loop dets pcx pcy ph (i : Int) k
        = .ok (((dets.drop i).take k).map (delta_of pcx pcy ph)) := by
  intro k
  induction k with
  | zero => intro i _; simp [delta_loop]
  | succ k ih =>
    intro i h
    have hi : i < dets.length := by omega
    have hnext := ih (i + 1) (by omega)
    have hcast : ((i : Int) + 1) = ((i + 1 : Nat) : Int) := by push_cast; rfl
    rw [delta_loop, delta_at, vector_at_natCast dets i hi]
    simp only []
    rw [hcast, hnext, List.drop_eq_getElem_cons hi]
    rw [List.take_succ_cons, List.map_cons]
    rfl

/-- On a history of `1 ≤ L < 2^31` entries the motions are those of the window
of the last `min 10 (L - 1) + 1` entries. -/
theorem motion_eq (self : TrackedDetection)
    (h1 : 1 ≤ self.detections_in_time.length) (h2 : self.detections_in_time.length < 2 ^ 31) :
    ∃ d0, self.detections_in_time[self.detections_in_time.length
              - min 10 (self.detections_in_time.length - 1) - 1]? = some d0 ∧
      self.motion = .ok (motion_of d0 (self.detections_in_time.drop
        (self.detections_in_time.length - min 10 (self.detections_in_time.length - 1)))) := by
  generalize hL : self.detections_in_time.length = L at *
  generalize hn : min 10 (L - 1) = n
  have hnL : n + 1 ≤ L := by omega
  have hn10 : n ≤ 10 := by omega
  have hidx : L - n - 1 < self.detections_in_time.length := by omega
  refine ⟨self.detections_in_time[L - n - 1], by simp [hidx], ?_⟩
  have hmin : min (10 : Int) ((L : Int) - 1) = (n : Int) := by omega
  have hbase : (L : Int) - (n : Int) - 1 = ((L - n - 1 : Nat) : Int) := by omega
  have hstart : (L : Int) - (n : Int) = ((L - n : Nat) : Int) := by omega
  have hrem : ((L : Int) - ((L - n : Nat) : Int)).toNat = n := by omega
  have hloop := delta_loop_eq self.detections_in_time
    (center_x self.detections_in_time[L - n - 1].bounding_box)
    (center_y self.detections_in_time[L - n - 1].bounding_box)
    (height self.detections_in_time[L - n - 1].bounding_box) n (L - n) (by omega)
  have htake : (self.detections_in_time.drop (L - n)).take n
      = self.detections_in_time.drop (L - n) := by
    apply List.take_of_length_le
    simp; omega
  have hlen : (self.detections_in_time.drop (L - n)).length = n := by simp; omega
  unfold TrackedDetection.motion
  rw [hL, to_int_of_range (L : Int) (by omega) (by omega)]
  simp only [hmin]
  rw [if_neg (by omega), hbase, vector_at_natCast _ _ hidx]
  simp only [hstart, hrem]
  unfold center_x center_y height at hloop
  rw [hloop, htake]
  simp only [motion_of, hlen, Int.toNat_ofNat]
  have hc : (((n : Int) * ((n : Int) + 1) : Int) : ℚ) = (n : ℚ) * ((n : ℚ) + 1) := by
    push_cast; ring
  rw [hc]
  rfl

theorem motion_ok (self : TrackedDetection)
    (h1 : 1 ≤ self.detections_in_time.length) (h2 : self.detections_in_time.length < 2 ^ 31) :
    ∃ m, self.motion = .ok m := by
  obtain ⟨d0, -, h⟩ := motion_eq self h1 h2
  exact ⟨_, h⟩

theorem compute_of_motion (self : TrackedDetection) (xm ym hm : ℚ)
    (h : self.motion = .ok (xm, ym, hm)) :
    self.compute_extrapolated_bounding_box
      = .ok (extrapolated_bbox self.current_bounding_box xm ym hm) := by
  unfold TrackedDetection.compute_extrapolated_bounding_box
  rw [h]

theorem skip_of_compute (self : TrackedDetection) (b : Rectangle) (last : Detection)
    (hb : self.compute_extrapolated_bounding_box = .ok b)
    (hl : self.detections_in_time.getLast? = some last) :
    self.skip_one_detection = (.ok (), skipped self b last.score) := by
  unfold TrackedDetection.skip_one_detection
  rw [hb]
  simp only [hl]
  rfl

theorem skip_ok_inv (self t : TrackedDetection) (h : self.skip_one_detection = (.ok (), t)) :
    ∃ b last, self.compute_extrapolated_bounding_box = .ok b ∧
      self.detections_in_time.getLast? = some last ∧ t = skipped self b last.score := by
  unfold TrackedDetection.skip_one_detection at h
  cases hb : self.compute_extrapolated_bounding_box with
  | error e => rw [hb] at h; simp at h
  | ok b =>
    rw [hb] at h
    cases hl : self.detections_in_time.getLast? with
    | none => simp [hl] at h
    | some last =>
      simp only [hl] at h
      refine ⟨b, last, rfl, rfl, ?_⟩
      have := (Prod.mk.inj h).2
      rw [← this]
      rfl

/-- On a non-empty history of fewer than `2^31` entries `skip_one_detection`
completes. -/
theorem skip_defined (self : TrackedDetection)
    (h1 : 1 ≤ self.detections_in_time.length) (h2 : self.detections_in_time.length < 2 ^ 31) :
    ∃ xm ym hm last, self.motion = .ok (xm, ym, hm) ∧
      self.detections_in_time.getLast? = some last ∧
      self.skip_one_detection = (.ok (),
        skipped self (extrapolated_bbox self.current_bounding_box xm ym hm) last.score) := by
  obtain ⟨⟨xm, ym, hm⟩, hmot⟩ := motion_ok self h1 h2
  have hne : self.detections_in_time ≠ [] := by
    intro h
    rw [h] at h1
    simp at h1
  obtain ⟨last, hlast⟩ := Option.isSome_iff_exists.mp (List.getLast?_isSome.mpr hne)
  exact ⟨xm, ym, hm, last, hmot, hlast,
    skip_of_compute self _ last (compute_of_motion self xm ym hm hmot) hlast⟩

theorem update_back_score_concat (v : List Detection) (d : Detection) (f : ℚ → ℚ) :
    update_back_score (v ++ [d]) f = v ++ [{ d with score := f d.score }] := by
  simp [update_back_score]

theorem add_of_class (self : TrackedDetection) (d : Detection)
    (h : d.object_class = self.object_class) :
    self.add_matched_detection d = (.ok (), matched self d) := by
  unfold TrackedDetection.add_matched_detection
  rw [if_neg (by simpa using h)]
  simp only [update_back_score_concat, matched, reweighted_score, List.length_append,
    List.length_singleton]

theorem add_of_mismatch (self : TrackedDetection) (d : Detection)
    (h : d.object_class ≠ self.object_class) :
    self.add_matched_detection d = (.error .assertion_failed, self) := by
  unfold TrackedDetection.add_matched_detection
  rw [if_pos h]

theorem add_ok_inv (self t : TrackedDetection) (d : Detection)
    (h : self.add_matched_detection d = (.ok (), t)) :
    d.object_class = self.object_class ∧ t = matched self d := by
  by_cases hc : d.object_class = self.object_class
  · rw [add_of_class self d hc] at h
    exact ⟨hc, ((Prod.mk.inj h).2).symm⟩
  · rw [add_of_mismatch self d hc] at h
    simp at h

/-- A run of matched detections of the track's class completes; it grows the
history by one entry per detection, leaves no extrapolation pending and ends
with the box of the last detection as current box. -/
theorem run_matched (ds : List Detection) :
    ∀ self : TrackedDetection, (∀ x ∈ ds, x.object_class = self.object_class) →
      ∃ t, self.run (ds.map Call.add_matched_detection) = (.ok (), t) ∧
        t.detections_in_time.length = self.detections_in_time.length + ds.length ∧
        (ds ≠ [] → t.num_extrapolated_detections = 0) ∧
        t.object_class = self.object_class ∧
        t.max_extrapolation_length = self.max_extrapolation_length ∧
        (∀ last, ds.getLast? = some last → t.current_bounding_box = last.bounding_box) := by
  induction ds with
  | nil => intro self _; exact ⟨self, rfl, by simp, by simp, rfl, rfl, by simp⟩
  | cons d ds ih =>
    intro self hall
    have hd : d.object_class = self.object_class := hall d (by simp)
    obtain ⟨t, hrun, hlen, hnex, hcls, hmel, hbox⟩ := ih (matched self d) (by
      intro x hx
      exact hall x (by simp [hx]))
    have ht0 : ds = [] → t = matched self d := by
      intro hds
      subst hds
      rw [List.map_nil, TrackedDetection.run] at hrun
      exact ((Prod.mk.inj hrun).2).symm
    refine ⟨t, ?_, ?_, ?_, ?_, ?_, ?_⟩
    · rw [List.map_cons, TrackedDetection.run, TrackedDetection.call, add_of_class self d hd]
      exact hrun
    · rw [hlen]
      simp [matched]
      omega
    · intro _
      by_cases hds : ds = []
      · rw [ht0 hds]
        rfl
      · exact hnex hds
    · rw [hcls]; rfl
    · rw [hmel]; rfl
    · intro last hlast
      cases ds with
      | nil =>
        rw [ht0 rfl]
        simp at hlast
        rw [← hlast]
        rfl
      | cons e es =>
        rw [List.getLast?_cons_cons] at hlast
        exact hbox last hlast

/-! ## Score reweighting -/

/-- C1: for every track and every detection `d` of the track's class,
`add_matched_detection d` completes, and the last history entry then has the
class and bounding box of `d` and the score `M * (T / L) * 2`, where
`M = max (old max_detection_score) d.score`,
`T = old num_true_detections_in_time + 1` and `L = old history length + 1`. -/
theorem add_matched_detection_reweights_score (self : TrackedDetection) (d : Detection)
    (hclass : d.object_class = self.object_class) :
    ∃ t, self.add_matched_detection d = (.ok (), t) ∧
      t.get_length = self.get_length + 1 ∧
      t.detections_in_time.getLast? = some
        { object_class := d.object_class
          bounding_box := d.bounding_box
          score := max self.max_detection_score d.score *
            (((self.num_true_detections_in_time + 1 : Int) : ℚ) /
              ((self.detections_in_time.length + 1 : Nat) : ℚ)) * 2 } := by
  refine ⟨matched self d, add_of_class self d hclass, ?_, ?_⟩
  · simp [TrackedDetection.get_length, matched]
  · simp [matched, reweighted_score]

/-- C1 at the sample track: `M = 0.8`, `T = 3`, `L = 4` give the stored score `1.2`. -/
theorem add_matched_detection_reweights_score_witness :
    ∃ t, sample_track_three.add_matched_detection
          (sample_detection (sample_box 10 0 50 100) (1 / 2)) = (.ok (), t) ∧
      t.get_length = 4 ∧
      t.detections_in_time.getLast? = some
        { object_class := 1, bounding_box := sample_box 10 0 50 100, score := 6 / 5 } := by
  obtain ⟨t, h1, h2, h3⟩ := add_matched_detection_reweights_score sample_track_three
    (sample_detection (sample_box 10 0 50 100) (1 / 2)) rfl
  refine ⟨t, h1, ?_, ?_⟩
  · rw [h2]; rfl
  · rw [h3]
    norm_num [sample_track_three, sample_detection]

/-! ## Single-precision rounding -/

theorem round_half_even_nonneg (x : ℚ) (hx : 0 ≤ x) : 0 ≤ round_half_even x := by
  have hf : 0 ≤ ⌊x⌋ := Int.floor_nonneg.mpr hx
  unfold round_half_even
  simp only []
  split_ifs <;> omega

theorem round_half_even_nonpos (x : ℚ) (hx : x < 0) : round_half_even x ≤ 0 := by
  have hf : ⌊x⌋ < 0 := Int.floor_lt.mpr (by simpa using hx)
  unfold round_half_even
  simp only []
  split_ifs <;> omega

theorem nearest_float_nonpos (q : ℚ) (hq : q < 0) : nearest_float q ≤ 0 := by
  unfold nearest_float
  have hpos : (0 : ℚ) < (2 : ℚ) ^ (float_exponent q - 23) := by positivity
  have hr := round_half_even_nonpos (q / (2 : ℚ) ^ (float_exponent q - 23))
    (div_neg_of_neg_of_pos hq hpos)
  have hrq : ((round_half_even (q / (2 : ℚ) ^ (float_exponent q - 23)) : Int) : ℚ) ≤ 0 := by
    exact_mod_cast hr
  exact mul_nonpos_of_nonpos_of_nonneg hrq hpos.le

theorem nearest_float_nonneg (q : ℚ) (hq : 0 ≤ q) : 0 ≤ nearest_float q := by
  unfold nearest_float
  have hpos : (0 : ℚ) < (2 : ℚ) ^ (float_exponent q - 23) := by positivity
  have hr := round_half_even_nonneg (q / (2 : ℚ) ^ (float_exponent q - 23))
    (div_nonneg hq hpos.le)
  have hrq : (0 : ℚ) ≤ ((round_half_even (q / (2 : ℚ) ^ (float_exponent q - 23)) : Int) : ℚ) := by
    exact_mod_cast hr
  exact mul_nonneg hrq hpos.le

/-- Comparing the `float` result with 128 is comparing the nearest 24-bit value
with 128: an infinity compares as the finite value it replaces. -/
theorem round_to_float_gt (q : ℚ) :
    (round_to_float q).gt 128 = decide (nearest_float q > 128) := by
  unfold round_to_float
  split_ifs with hbig
  · by_cases hq : q < 0
    · have h1 := nearest_float_nonpos q hq
      simp only [FloatValue.gt, hq, decide_True, Bool.not_true]
      symm
      rw [decide_eq_false_iff_not]
      linarith
    · have h1 := nearest_float_nonneg q (not_lt.mp hq)
      rw [abs_of_nonneg h1] at hbig
      simp only [FloatValue.gt, hq, decide_False, Bool.not_false]
      symm
      rw [decide_eq_true_iff]
      have : (128 : ℚ) < 2 ^ 128 := by norm_num
      linarith
  · rfl

theorem float_exponent_of_bounds (q : ℚ) (e : Int) (he : -126 ≤ e)
    (h1 : (2 : ℚ) ^ e ≤ |q|) (h2 : |q| < (2 : ℚ) ^ (e + 1)) : float_exponent q = e := by
  have hpos : (0 : ℚ) < |q| := lt_of_lt_of_le (by positivity) h1
  have hlo : e ≤ Int.log 2 |q| :=
    (Int.zpow_le_iff_le_log (by norm_num) hpos).mp (by exact_mod_cast h1)
  have hhi : Int.log 2 |q| < e + 1 :=
    (Int.lt_zpow_iff_log_lt (by norm_num) hpos).mp (by exact_mod_cast h2)
  unfold float_exponent
  omega

theorem round_half_even_of_lt_half (x : ℚ) (f : Int) (h1 : (f : ℚ) ≤ x)
    (h2 : x - (f : ℚ) < 1 / 2) : round_half_even x = f := by
  have hf : ⌊x⌋ = f := Int.floor_eq_iff.mpr ⟨h1, by linarith⟩
  unfold round_half_even
  simp only [hf]
  rw [if_pos h2]

/-- Evaluation of `nearest_float` at a value whose binary exponent is `e` and
which lies less than half a spacing above the multiple `f`. -/
theorem nearest_float_eval (q : ℚ) (e f : Int) (he : -126 ≤ e)
    (h1 : (2 : ℚ) ^ e ≤ |q|) (h2 : |q| < (2 : ℚ) ^ (e + 1))
    (h3 : (f : ℚ) ≤ q / (2 : ℚ) ^ (e - 23))
    (h4 : q / (2 : ℚ) ^ (e - 23) - (f : ℚ) < 1 / 2) :
    nearest_float q = (f : ℚ) * (2 : ℚ) ^ (e - 23) := by
  unfold nearest_float
  rw [float_exponent_of_bounds q e he h1 h2, round_half_even_of_lt_half _ f h3 h4]

theorem nearest_float_130 : nearest_float 130 = 130 := by
  rw [nearest_float_eval 130 7 8519680 (by norm_num) (by norm_num [abs_of_pos])
    (by norm_num [abs_of_pos]) (by norm_num) (by norm_num)]
  norm_num

theorem nearest_float_100 : nearest_float 100 = 100 := by
  rw [nearest_float_eval 100 6 13107200 (by norm_num) (by norm_num [abs_of_pos])
    (by norm_num [abs_of_pos]) (by norm_num) (by norm_num)]
  norm_num

/-- The exact height `128 + 2^-20` is rounded to the `float` 128. -/
theorem nearest_float_above_128 : nearest_float (128 + 1 / 1048576) = 128 := by
  rw [nearest_float_eval (128 + 1 / 1048576) 7 8388608 (by norm_num)
    (by norm_num [abs_of_pos]) (by norm_num [abs_of_pos]) (by norm_num) (by norm_num)]
  norm_num

/-! ## Reliability gate -/

/-- The gate in terms of the exact difference `size - num_extrapolated_detections`,
when that difference is representable as an `int`, and of the height rounded
to single precision. -/
theorem get_max_extrapolation_length_eq (self : TrackedDetection)
    (hlo : -2 ^ 31 ≤ (self.detections_in_time.length : Int) - self.num_extrapolated_detections)
    (hhi : (self.detections_in_time.length : Int) - self.num_extrapolated_detections < 2 ^ 31) :
    self.get_max_extrapolation_length =
      if max 1 ((self.detections_in_time.length : Int) - self.num_extrapolated_detections) > 30 ∧
          nearest_float (height self.current_bounding_box) > 128 then
        self.max_extrapolation_length
      else 0 := by
  have hconv : to_int (to_size_t ((self.detections_in_time.length : Int)
      - to_size_t self.num_extrapolated_detections))
      = (self.detections_in_time.length : Int) - self.num_extrapolated_detections := by
    rw [to_int_eq_wrap, to_size_t_eq_mod, to_size_t_eq_mod]
    omega
  have h128 : ((128 : Int) : ℚ) = 128 := by norm_num
  unfold TrackedDetection.get_max_extrapolation_length
  simp only [hconv, height, h128, round_to_float_gt]
  by_cases ha : max 1 ((self.detections_in_time.length : Int)
      - self.num_extrapolated_detections) > 30
  · by_cases hb : nearest_float (self.current_bounding_box.max_corner.y
        - self.current_bounding_box.min_corner.y) > 128
    · simp [ha, hb]
    · simp [ha, hb]
  · simp [ha]

/-- C2 fails as stated: the track founded on the box `(0,-2^-20)-(52,128)` and
matched 30 times with that box has 31 entries, none extrapolated, and a
current box of exact height `128 + 2^-20 > 128`, so both tests of the claim
hold; the `float` difference of line 103 is `128`, and
`get_max_extrapolation_length` returns 0, not the configured 5. -/
theorem gate_rounds_window_height :
    ∃ t, sample_track_margin.run sample_calls_margin = (.ok (), t) ∧
      t.max_extrapolation_length = 5 ∧
      max 1 ((t.detections_in_time.length : Int) - t.num_extrapolated_detections) = 31 ∧
      height t.current_bounding_box = 128 + 1 / 1048576 ∧
      128 < height t.current_bounding_box ∧
      t.get_max_extrapolation_length = 0 := by
  obtain ⟨t, hrun, hlen, hnex, -, hmel, hbox⟩ := run_matched
    (List.replicate 30 (sample_detection (sample_box 0 (-1 / 1048576) 52 128) (1 / 2)))
    sample_track_margin
    (by
      intro x hx
      rw [(List.mem_replicate.mp hx).2]
      rfl)
  have hL : t.detections_in_time.length = 31 := by
    rw [hlen]
    rfl
  have hnex0 := hnex (by simp)
  have hcur := hbox (sample_detection (sample_box 0 (-1 / 1048576) 52 128) (1 / 2))
    (by simp [List.getLast?_replicate])
  have hh : height t.current_bounding_box = 128 + 1 / 1048576 := by
    rw [hcur]
    norm_num [height, sample_detection, sample_box]
  refine ⟨t, hrun, hmel, ?_, hh, ?_, ?_⟩
  · rw [hL, hnex0]
    norm_num
  · rw [hh]
    norm_num
  · rw [get_max_extrapolation_length_eq t (by rw [hL, hnex0]; norm_num)
      (by rw [hL, hnex0]; norm_num), hh, nearest_float_above_128]
    norm_num

/-- C2, amended: `get_max_extrapolation_length` returns the configured
`max_extrapolation_length` when `max(1, history_length - num_extrapolated_detections) > 30`
holds and the height `max.y - min.y` of the current box, rounded to single
precision as line 103 computes it, exceeds 128; it returns 0 otherwise (for
every state whose difference `history_length - num_extrapolated_detections` is
representable as an `int`).  A fresh track of height 200 gets 0; a track built
from the founding detection and 30 matched ones gets the configured value when
its box has height 130 and 0 when it has height 100. -/
theorem get_max_extrapolation_length_gate :
    (∀ self : TrackedDetection,
      -2 ^ 31 ≤ (self.detections_in_time.length : Int) - self.num_extrapolated_detections →
      (self.detections_in_time.length : Int) - self.num_extrapolated_detections < 2 ^ 31 →
      self.get_max_extrapolation_length =
        if max 1 ((self.detections_in_time.length : Int) - self.num_extrapolated_detections) > 30 ∧
            nearest_float (height self.current_bounding_box) > 128 then
          self.max_extrapolation_length
        else 0) ∧
    (∀ (id : Int) (d : Detection) (mel : Int), height d.bounding_box = 200 →
      (TrackedDetection.construct id d mel).get_length = 1 ∧
      (TrackedDetection.construct id d mel).get_max_extrapolation_length = 0) ∧
    (∀ (id : Int) (d : Detection) (mel : Int) (ds : List Detection) (last : Detection),
      ds.length = 30 → (∀ x ∈ ds, x.object_class = d.object_class) → ds.getLast? = some last →
      ∃ t, (TrackedDetection.construct id d mel).run (ds.map Call.add_matched_detection)
            = (.ok (), t) ∧
        t.get_length = 31 ∧
        t.current_bounding_box = last.bounding_box ∧
        (height last.bounding_box = 130 → t.get_max_extrapolation_length = mel) ∧
        (height last.bounding_box = 100 → t.get_max_extrapolation_length = 0)) := by
  refine ⟨get_max_extrapolation_length_eq, ?_, ?_⟩
  · intro id d mel _
    refine ⟨rfl, ?_⟩
    rw [get_max_extrapolation_length_eq _ (by simp [TrackedDetection.construct])
      (by simp [TrackedDetection.construct])]
    simp [TrackedDetection.construct]
  · intro id d mel ds last hlen hall hlast
    obtain ⟨t, hrun, htl, hnex, -, hmel, hbox⟩ :=
      run_matched ds (TrackedDetection.construct id d mel) hall
    have hne : ds ≠ [] := by
      intro h
      rw [h] at hlen
      simp at hlen
    have hnex0 := hnex hne
    have hL : t.detections_in_time.length = 31 := by
      rw [htl, hlen]
      rfl
    have hgate := get_max_extrapolation_length_eq t (by rw [hL, hnex0]; norm_num)
      (by rw [hL, hnex0]; norm_num)
    rw [hL, hnex0, hbox last hlast] at hgate
    refine ⟨t, hrun, hL, hbox last hlast, ?_, ?_⟩
    · intro hh
      rw [hgate, hh, hmel, nearest_float_130]
      norm_num [TrackedDetection.construct]
    · intro hh
      rw [hgate, hh, nearest_float_100]
      norm_num

/-- C2, amended, at concrete tracks: the three-entry sample track gets 0, a
fresh track of height 200 gets 0, and a track of 31 matched boxes gets the
configured 5 at height 130 and 0 at height 100. -/
theorem get_max_extrapolation_length_gate_witness :
    sample_track_three.get_max_extrapolation_length = 0 ∧
    (TrackedDetection.construct 7 (sample_detection (sample_box 0 0 80 200) (1 / 2)) 5
      ).get_max_extrapolation_length = 0 ∧
    (∃ t, (TrackedDetection.construct 7 (sample_detection (sample_box 0 0 52 130) (1 / 2)) 5).run
        ((List.replicate 30 (sample_detection (sample_box 0 0 52 130) (1 / 2))).map
          Call.add_matched_detection) = (.ok (), t) ∧
      t.get_max_extrapolation_length = 5) ∧
    (∃ t, (TrackedDetection.construct 7 (sample_detection (sample_box 0 0 52 130) (1 / 2)) 5).run
        ((List.replicate 30 (sample_detection (sample_box 0 0 40 100) (1 / 2))).map
          Call.add_matched_detection) = (.ok (), t) ∧
      t.get_max_extrapolation_length = 0) := by
  refine ⟨?_, ?_, ?_, ?_⟩
  · rw [get_max_extrapolation_length_gate.1 sample_track_three
      (by norm_num [sample_track_three]) (by norm_num [sample_track_three])]
    norm_num [sample_track_three]
  · exact (get_max_extrapolation_length_gate.2.1 7 _ 5
      (by norm_num [height, sample_detection, sample_box])).2
  · obtain ⟨t, hrun, -, -, h130, -⟩ := get_max_extrapolation_length_gate.2.2 7
      (sample_detection (sample_box 0 0 52 130) (1 / 2)) 5
      (List.replicate 30 (sample_detection (sample_box 0 0 52 130) (1 / 2)))
      (sample_detection (sample_box 0 0 52 130) (1 / 2))
      (by simp) (by simp) (by simp [List.getLast?_replicate])
    exact ⟨t, hrun, h130 (by norm_num [height, sample_detection, sample_box])⟩
  · obtain ⟨t, hrun, -, -, -, h100⟩ := get_max_extrapolation_length_gate.2.2 7
      (sample_detection (sample_box 0 0 52 130) (1 / 2)) 5
      (List.replicate 30 (sample_detection (sample_box 0 0 40 100) (1 / 2)))
      (sample_detection (sample_box 0 0 40 100) (1 / 2))
      (by simp) (by simp [sample_detection]) (by simp [List.getLast?_replicate])
    exact ⟨t, hrun, h100 (by norm_num [height, sample_detection, sample_box])⟩

/-! ## Geometry of the extrapolated box -/

/-- Geometry of the extrapolated box: the center moves by the motion, the height
is floored at 5 and the width is 0.4 times the height. -/
theorem extrapolated_bbox_geometry (b : Rectangle) (xm ym hm : ℚ) :
    center_x (extrapolated_bbox b xm ym hm) = center_x b + xm ∧
    center_y (extrapolated_bbox b xm ym hm) = center_y b + ym ∧
    height (extrapolated_bbox b xm ym hm) = max (height b + hm) 5 ∧
    width (extrapolated_bbox b xm ym hm) = 2 / 5 * height (extrapolated_bbox b xm ym hm) := by
  simp only [extrapolated_bbox, center_x, center_y, height, width]
  refine ⟨by ring, by ring, by ring, by ring⟩

/-- Without motion the box is reproduced exactly when its height is at least 5
and its width is 0.4 times its height. -/
theorem extrapolated_bbox_zero_eq_iff (b : Rectangle) :
    extrapolated_bbox b 0 0 0 = b ↔ 5 ≤ height b ∧ width b = 2 / 5 * height b := by
  obtain ⟨⟨x0, y0⟩, ⟨x1, y1⟩⟩ := b
  simp only [extrapolated_bbox, height, width, add_zero, Rectangle.mk.injEq, Point.mk.injEq]
  constructor
  · rintro ⟨⟨h1, h2⟩, h3, h4⟩
    have hmax : max (y1 - y0) 5 = y1 - y0 := by linarith
    have h5 : 5 ≤ y1 - y0 := by
      rw [← hmax]
      exact le_max_right _ _
    rw [hmax] at h1
    exact ⟨h5, by linarith⟩
  · rintro ⟨h5, hw⟩
    rw [max_eq_left h5]
    refine ⟨⟨by linarith, by ring⟩, by linarith, by ring⟩

theorem motion_single (self : TrackedDetection) (d : Detection)
    (hhist : self.detections_in_time = [d]) : self.motion = .ok (0, 0, 0) := by
  obtain ⟨d0, -, h⟩ := motion_eq self (by rw [hhist]; simp) (by rw [hhist]; simp)
  rw [h, hhist]
  simp [motion_of, weights, dot]

/-! ## Extrapolation from a single history entry -/

/-- C3 fails as stated: a fresh track founded on the box `(0,0)-(10,10)` has
history length 1, and `skip_one_detection` replaces its box by `(3,0)-(7,10)`. -/
theorem skip_single_entry_changes_box :
    (TrackedDetection.construct 7 (sample_detection (sample_box 0 0 10 10) (4 / 5)) 5
      ).get_length = 1 ∧
    ∃ t, (TrackedDetection.construct 7 (sample_detection (sample_box 0 0 10 10) (4 / 5)) 5
      ).skip_one_detection = (.ok (), t) ∧
      t.current_bounding_box = sample_box 3 0 7 10 ∧
      t.detections_in_time.getLast?.map (fun e => e.bounding_box) = some (sample_box 3 0 7 10) ∧
      t.current_bounding_box ≠ sample_box 0 0 10 10 := by
  refine ⟨rfl, ?_⟩
  have hm := motion_single
    (TrackedDetection.construct 7 (sample_detection (sample_box 0 0 10 10) (4 / 5)) 5)
    (sample_detection (sample_box 0 0 10 10) (4 / 5)) rfl
  have hs := skip_of_compute _ _ (sample_detection (sample_box 0 0 10 10) (4 / 5))
    (compute_of_motion _ 0 0 0 hm) rfl
  have hb : extrapolated_bbox (sample_box 0 0 10 10) 0 0 0 = sample_box 3 0 7 10 := by
    norm_num [extrapolated_bbox, sample_box]
  refine ⟨_, hs, ?_, ?_, ?_⟩
  · exact hb
  · simp only [skipped, List.getLast?_append, List.getLast?_singleton]
    simp only [Option.or_some, Option.map_some']
    exact congrArg some hb
  · show extrapolated_bbox (sample_box 0 0 10 10) 0 0 0 ≠ sample_box 0 0 10 10
    rw [hb]
    norm_num [sample_box]

/-- C3, amended: on a track whose history is the single founding detection `d`
(and whose current box is that of `d`), `skip_one_detection` completes; the new
current box is also the box of the appended entry, it has the center of the
founding box, height `max(h, 5)` for the founding height `h`, and width 0.4
times its height.  It equals the founding box exactly when `h ≥ 5` and the
founding width is `0.4 * h`. -/
theorem skip_single_entry (self : TrackedDetection) (d : Detection)
    (hhist : self.detections_in_time = [d])
    (hcur : self.current_bounding_box = d.bounding_box) :
    ∃ t, self.skip_one_detection = (.ok (), t) ∧
      t.detections_in_time = [d, { object_class := self.object_class,
                                   bounding_box := t.current_bounding_box, score := d.score }] ∧
      center_x t.current_bounding_box = center_x d.bounding_box ∧
      center_y t.current_bounding_box = center_y d.bounding_box ∧
      height t.current_bounding_box = max (height d.bounding_box) 5 ∧
      width t.current_bounding_box = 2 / 5 * height t.current_bounding_box ∧
      (t.current_bounding_box = d.bounding_box ↔
        5 ≤ height d.bounding_box ∧ width d.bounding_box = 2 / 5 * height d.bounding_box) := by
  have hm := motion_single self d hhist
  have hs := skip_of_compute self _ d (compute_of_motion self 0 0 0 hm) (by rw [hhist]; rfl)
  obtain ⟨g1, g2, g3, g4⟩ := extrapolated_bbox_geometry d.bounding_box 0 0 0
  refine ⟨_, hs, ?_, ?_, ?_, ?_, ?_, ?_⟩
  · simp [skipped, hhist]
  · show center_x (extrapolated_bbox self.current_bounding_box 0 0 0) = _
    rw [hcur, g1, add_zero]
  · show center_y (extrapolated_bbox self.current_bounding_box 0 0 0) = _
    rw [hcur, g2, add_zero]
  · show height (extrapolated_bbox self.current_bounding_box 0 0 0) = _
    rw [hcur, g3, add_zero]
  · show width (extrapolated_bbox self.current_bounding_box 0 0 0) = _
    rw [hcur]
    exact g4
  · show extrapolated_bbox self.current_bounding_box 0 0 0 = _ ↔ _
    rw [hcur]
    exact extrapolated_bbox_zero_eq_iff d.bounding_box

/-- C3, amended, at a fresh track founded on the box `(0,0)-(40,100)`, which has
height 100 and width 40: the skip leaves the box unchanged. -/
theorem skip_single_entry_witness :
    ∃ t, (TrackedDetection.construct 7 (sample_detection (sample_box 0 0 40 100) (4 / 5)) 5
      ).skip_one_detection = (.ok (), t) ∧
      t.current_bounding_box = sample_box 0 0 40 100 := by
  obtain ⟨t, h1, -, -, -, -, -, h7⟩ := skip_single_entry
    (TrackedDetection.construct 7 (sample_detection (sample_box 0 0 40 100) (4 / 5)) 5)
    (sample_detection (sample_box 0 0 40 100) (4 / 5)) rfl rfl
  refine ⟨t, h1, ?_⟩
  exact h7.2 (by norm_num [height, width, sample_detection, sample_box])


/-! ## Motion model -/

/-- C4 fails on the code: on the track founded on `(0,0)-(40,100)` and matched
with `(10,0)-(50,100)` and `(20,0)-(60,100)` (center-x 20, 30, 40) the code
computes the x-motion `25/6`, from the deltas `10` and `20` taken against the
oldest box of the window, whereas consecutive pairs give deltas `10`, `10` and
the motion `5/2`. -/
theorem motion_deltas_against_window_base :
    ∃ t, (TrackedDetection.construct 7 (sample_detection (sample_box 0 0 40 100) (4 / 5)) 5).run
        sample_calls_moving = (.ok (), t) ∧
      t.detections_in_time.map (fun e => e.bounding_box)
        = [sample_box 0 0 40 100, sample_box 10 0 50 100, sample_box 20 0 60 100] ∧
      t.motion = .ok (25 / 6, 0, 0) ∧
      consecutive_pair_motion center_x (t.detections_in_time.map (fun e => e.bounding_box))
        = 5 / 2 ∧
      t.compute_extrapolated_bounding_box
        = .ok (sample_box (40 + 25 / 6 - 20) 0 (40 + 25 / 6 + 20) 100) := by
  have hmotion : (matched (matched
      (TrackedDetection.construct 7 (sample_detection (sample_box 0 0 40 100) (4 / 5)) 5)
      (sample_detection (sample_box 10 0 50 100) (1 / 2)))
      (sample_detection (sample_box 20 0 60 100) (1 / 2))).motion = .ok (25 / 6, 0, 0) := by
    simp [TrackedDetection.motion, matched, TrackedDetection.construct, to_int, vector_at,
      delta_loop, delta_at, weights, dot, sample_detection, sample_box, List.range_succ]
    norm_num
  refine ⟨_, ?_, ?_, hmotion, ?_, ?_⟩
  · have h1 := add_of_class
      (TrackedDetection.construct 7 (sample_detection (sample_box 0 0 40 100) (4 / 5)) 5)
      (sample_detection (sample_box 10 0 50 100) (1 / 2)) rfl
    have h2 := add_of_class (matched
      (TrackedDetection.construct 7 (sample_detection (sample_box 0 0 40 100) (4 / 5)) 5)
      (sample_detection (sample_box 10 0 50 100) (1 / 2)))
      (sample_detection (sample_box 20 0 60 100) (1 / 2)) rfl
    simp only [sample_calls_moving, TrackedDetection.run, TrackedDetection.call, h1, h2]
  · simp [matched, TrackedDetection.construct, sample_detection]
  · simp [consecutive_pair_motion, matched, TrackedDetection.construct, sample_detection,
      sample_box, center_x, weights, dot, List.range_succ]
    norm_num
  · rw [compute_of_motion _ _ _ _ hmotion]
    norm_num [extrapolated_bbox, matched, sample_detection, sample_box]


/-! ## Height floor and derived width -/

/-- C5: on every track state on which the call is defined (a non-empty history
of fewer than `2^31` entries) `compute_extrapolated_bounding_box` returns a box
whose height is `max(old height + height_motion, 5)` and whose width is 0.4
times that height; when `old height + height_motion ≤ 5` the height is exactly
5 and the width exactly 2; the height is never below 5, and
`skip_one_detection` makes this box the current box. -/
theorem extrapolated_height_floor (self : TrackedDetection)
    (h1 : 1 ≤ self.detections_in_time.length) (h2 : self.detections_in_time.length < 2 ^ 31) :
    ∃ (x_motion y_motion height_motion : ℚ) (b : Rectangle) (t : TrackedDetection),
      self.motion = .ok (x_motion, y_motion, height_motion) ∧
      self.compute_extrapolated_bounding_box = .ok b ∧
      height b = max (height self.current_bounding_box + height_motion) 5 ∧
      width b = 2 / 5 * height b ∧
      (height self.current_bounding_box + height_motion ≤ 5 → height b = 5 ∧ width b = 2) ∧
      5 ≤ height b ∧
      self.skip_one_detection = (.ok (), t) ∧ t.current_bounding_box = b := by
  obtain ⟨xm, ym, hm, last, hmot, -, hskip⟩ := skip_defined self h1 h2
  have hcomp := compute_of_motion self xm ym hm hmot
  obtain ⟨-, -, g3, g4⟩ := extrapolated_bbox_geometry self.current_bounding_box xm ym hm
  refine ⟨xm, ym, hm, _, _, hmot, hcomp, g3, g4, ?_, ?_, hskip, rfl⟩
  · intro hle
    have h5 : height (extrapolated_bbox self.current_bounding_box xm ym hm) = 5 := by
      rw [g3]
      exact max_eq_right hle
    refine ⟨h5, ?_⟩
    rw [g4, h5]
    norm_num
  · rw [g3]
    exact le_max_right _ _

/-- C5 at the shrinking sample track: the height motion is `-1000`, the
extrapolated box has height exactly 5 and width exactly 2. -/
theorem extrapolated_height_floor_witness :
    1 ≤ sample_track_shrinking.detections_in_time.length ∧
    sample_track_shrinking.detections_in_time.length < 2 ^ 31 ∧
    sample_track_shrinking.motion = .ok (-200, -500, -1000) ∧
    ∃ b, sample_track_shrinking.compute_extrapolated_bounding_box = .ok b ∧
      height b = 5 ∧ width b = 2 := by
  have hmotion : sample_track_shrinking.motion = .ok (-200, -500, -1000) := by
    simp [TrackedDetection.motion, sample_track_shrinking, matched, TrackedDetection.construct,
      to_int, vector_at, delta_loop, delta_at, weights, dot, sample_detection, sample_box,
      List.range_succ]
    norm_num
  obtain ⟨xm, ym, hm, b, t, e1, e2, -, -, e5, -, -, -⟩ :=
    extrapolated_height_floor sample_track_shrinking (by decide) (by decide)
  rw [hmotion] at e1
  have hhm : hm = -1000 := by
    have := Except.ok.inj e1
    simp only [Prod.mk.injEq] at this
    exact this.2.2.symm
  refine ⟨by decide, by decide, hmotion, b, e2, e5 ?_⟩
  rw [hhm]
  norm_num [height, sample_track_shrinking, matched, sample_detection, sample_box]


/-! ## Sequences of calls -/

/-- A property that holds initially and is kept by every completed call holds
after every completed run. -/
theorem run_invariant (P : TrackedDetection → Prop)
    (hstep : ∀ (s : TrackedDetection) (c : Call) (t : TrackedDetection),
      P s → s.call c = (.ok (), t) → P t) :
    ∀ (calls : List Call) (s t : TrackedDetection),
      P s → s.run calls = (.ok (), t) → P t := by
  intro calls
  induction calls with
  | nil =>
    intro s t hs hrun
    rw [TrackedDetection.run] at hrun
    rw [← (Prod.mk.inj hrun).2]
    exact hs
  | cons c cs ih =>
    intro s t hs hrun
    rw [TrackedDetection.run] at hrun
    rcases hcall : s.call c with ⟨r, s1⟩
    rw [hcall] at hrun
    cases r with
    | error e => simp at hrun
    | ok u => exact ih s1 t (hstep s c s1 hs hcall) hrun

/-- The first call of a completed run completes, and the rest runs from its result. -/
theorem run_cons_inv (s t : TrackedDetection) (c : Call) (cs : List Call)
    (hrun : s.run (c :: cs) = (.ok (), t)) :
    ∃ s1, s.call c = (.ok (), s1) ∧ s1.run cs = (.ok (), t) := by
  rw [TrackedDetection.run] at hrun
  rcases hcall : s.call c with ⟨r, s1⟩
  rw [hcall] at hrun
  cases r with
  | error e => simp at hrun
  | ok u => exact ⟨s1, rfl, hrun⟩

/-- A completed call is a completed `add_matched_detection` of the track's class
or a completed `skip_one_detection`. -/
theorem call_ok_inv (s t : TrackedDetection) (c : Call) (h : s.call c = (.ok (), t)) :
    (∃ d, c = Call.add_matched_detection d ∧ d.object_class = s.object_class ∧ t = matched s d) ∨
    (∃ b last, c = Call.skip_one_detection ∧ s.compute_extrapolated_bounding_box = .ok b ∧
      s.detections_in_time.getLast? = some last ∧ t = skipped s b last.score) := by
  cases c with
  | add_matched_detection d =>
    left
    obtain ⟨h1, h2⟩ := add_ok_inv s t d h
    exact ⟨d, rfl, h1, h2⟩
  | skip_one_detection =>
    right
    obtain ⟨b, last, h1, h2, h3⟩ := skip_ok_inv s t h
    exact ⟨b, last, rfl, h1, h2, h3⟩

/-- The sample run: one match and one skip from the fresh sample track. -/
theorem sample_run_mixed :
    sample_track_fresh.run sample_calls_mixed = (.ok (), sample_track_mixed) := by
  have h1 := add_of_class sample_track_fresh (sample_detection (sample_box 10 0 50 100) (1 / 2)) rfl
  have hmotion : (matched sample_track_fresh
      (sample_detection (sample_box 10 0 50 100) (1 / 2))).motion = .ok (5 / 2, 0, 0) := by
    simp [TrackedDetection.motion, sample_track_fresh, matched, TrackedDetection.construct,
      to_int, vector_at, delta_loop, delta_at, weights, dot, sample_detection, sample_box,
      List.range_succ]
    norm_num
  have hcomp := compute_of_motion _ _ _ _ hmotion
  have hbox : extrapolated_bbox (matched sample_track_fresh
      (sample_detection (sample_box 10 0 50 100) (1 / 2))).current_bounding_box (5 / 2) 0 0
      = sample_box (25 / 2) 0 (105 / 2) 100 := by
    norm_num [extrapolated_bbox, matched, sample_detection, sample_box]
  rw [hbox] at hcomp
  have h2 := skip_of_compute _ _
    { object_class := 1, bounding_box := sample_box 10 0 50 100, score := 4 / 5 } hcomp
    (by
      simp only [matched, List.getLast?_append, List.getLast?_singleton, Option.or_some]
      norm_num [reweighted_score, sample_track_fresh, TrackedDetection.construct,
        sample_detection])
  simp only [sample_calls_mixed, TrackedDetection.run, TrackedDetection.call, h1, h2]
  rfl


/-! ## Invariants of reachable states -/

/-- C6: in every state reached from the constructor by completed
`add_matched_detection` and `skip_one_detection` calls, `current_bounding_box`
is the bounding box of the last entry of `detections_in_time`, and
`object_class` and the id are the values fixed at construction. -/
theorem cached_box_invariant (id : Int) (d : Detection) (mel : Int) (calls : List Call)
    (t : TrackedDetection)
    (hrun : (TrackedDetection.construct id d mel).run calls = (.ok (), t)) :
    t.detections_in_time.getLast?.map (fun e => e.bounding_box)
      = some t.get_current_bounding_box ∧
    t.object_class = d.object_class ∧ t.get_id = id := by
  refine run_invariant
    (fun s => s.detections_in_time.getLast?.map (fun e => e.bounding_box)
        = some s.get_current_bounding_box ∧
      s.object_class = d.object_class ∧ s.get_id = id)
    ?_ calls (TrackedDetection.construct id d mel) t ⟨rfl, rfl, rfl⟩ hrun
  intro s c t1 ⟨_, hc, hi⟩ hcall
  rcases call_ok_inv s t1 c hcall with ⟨x, -, -, ht⟩ | ⟨b, last, -, -, -, ht⟩
  · subst ht
    refine ⟨?_, hc, hi⟩
    simp [matched, TrackedDetection.get_current_bounding_box]
  · subst ht
    refine ⟨?_, hc, hi⟩
    simp [skipped, TrackedDetection.get_current_bounding_box]

/-- C6 at the sample run of one match and one skip. -/
theorem cached_box_invariant_witness :
    sample_track_fresh.run sample_calls_mixed = (.ok (), sample_track_mixed) ∧
    sample_track_mixed.detections_in_time.getLast?.map (fun e => e.bounding_box)
      = some sample_track_mixed.get_current_bounding_box ∧
    sample_track_mixed.object_class = 1 ∧ sample_track_mixed.get_id = 7 :=
  ⟨sample_run_mixed,
    cached_box_invariant 7 (sample_detection (sample_box 0 0 40 100) (4 / 5)) 5
      sample_calls_mixed sample_track_mixed sample_run_mixed⟩

/-! ## Counters -/

/-- C7: `add_matched_detection` (for a detection of the track's class) sets
`num_extrapolated_detections` to 0, increments `num_consecutive_detections` and
`num_true_detections_in_time` by 1 and sets `max_consecutive_detections` to the
maximum of its old value and the new `num_consecutive_detections`;
`skip_one_detection` (where it is defined) sets `num_consecutive_detections` to
0, increments `num_extrapolated_detections` by 1 and leaves
`num_true_detections_in_time` and `max_consecutive_detections` unchanged. -/
theorem counter_updates :
    (∀ (self : TrackedDetection) (d : Detection), d.object_class = self.object_class →
      ∃ t, self.add_matched_detection d = (.ok (), t) ∧
        t.num_extrapolated_detections = 0 ∧
        t.get_extrapolation_length = 0 ∧
        t.num_consecutive_detections = self.num_consecutive_detections + 1 ∧
        t.num_true_detections_in_time = self.num_true_detections_in_time + 1 ∧
        t.max_consecutive_detections
          = max self.max_consecutive_detections t.num_consecutive_detections) ∧
    (∀ self : TrackedDetection, 1 ≤ self.detections_in_time.length →
      self.detections_in_time.length < 2 ^ 31 →
      ∃ t, self.skip_one_detection = (.ok (), t) ∧
        t.num_consecutive_detections = 0 ∧
        t.num_extrapolated_detections = self.num_extrapolated_detections + 1 ∧
        t.num_true_detections_in_time = self.num_true_detections_in_time ∧
        t.max_consecutive_detections = self.max_consecutive_detections) := by
  constructor
  · intro self d hd
    exact ⟨matched self d, add_of_class self d hd, rfl, rfl, rfl, rfl, rfl⟩
  · intro self h1 h2
    obtain ⟨xm, ym, hm, last, -, -, hskip⟩ := skip_defined self h1 h2
    exact ⟨_, hskip, rfl, rfl, rfl, rfl⟩

/-- C7 at the three-entry sample track, whose counters are
`(extrapolated, true, consecutive, max consecutive) = (0, 2, 2, 2)`. -/
theorem counter_updates_witness :
    (∃ t, sample_track_three.add_matched_detection
        (sample_detection (sample_box 10 0 50 100) (1 / 2)) = (.ok (), t) ∧
      t.num_extrapolated_detections = 0 ∧ t.num_consecutive_detections = 3 ∧
      t.num_true_detections_in_time = 3 ∧ t.max_consecutive_detections = 3) ∧
    (∃ t, sample_track_three.skip_one_detection = (.ok (), t) ∧
      t.num_consecutive_detections = 0 ∧ t.num_extrapolated_detections = 1 ∧
      t.num_true_detections_in_time = 2 ∧ t.max_consecutive_detections = 2) := by
  constructor
  · obtain ⟨t, h, e1, -, e2, e3, e4⟩ := counter_updates.1 sample_track_three
      (sample_detection (sample_box 10 0 50 100) (1 / 2)) rfl
    refine ⟨t, h, e1, ?_, ?_, ?_⟩
    · rw [e2]; rfl
    · rw [e3]; rfl
    · rw [e4, e2]; rfl
  · obtain ⟨t, h, e1, e2, e3, e4⟩ := counter_updates.2 sample_track_three
      (by decide) (by decide)
    refine ⟨t, h, e1, ?_, ?_, ?_⟩
    · rw [e2]; rfl
    · rw [e3]; rfl
    · rw [e4]; rfl

/-! ## Class mismatch -/

/-- C8: for a detection whose class differs from the track's class,
`add_matched_detection` stops at its assertion, the first statement of the
method, and leaves the track state as it was; for a detection of the track's
class it completes. -/
theorem class_mismatch_fault (self : TrackedDetection) (d : Detection) :
    (d.object_class ≠ self.object_class →
      self.add_matched_detection d = (.error Fault.assertion_failed, self)) ∧
    (d.object_class = self.object_class →
      ∃ t, self.add_matched_detection d = (.ok (), t)) :=
  ⟨add_of_mismatch self d, fun h => ⟨matched self d, add_of_class self d h⟩⟩

/-- C8 at the three-entry sample track (class 1): a detection of class 2 faults
and leaves the track as it was, a detection of class 1 is accepted. -/
theorem class_mismatch_fault_witness :
    sample_track_three.add_matched_detection
        { object_class := 2, bounding_box := sample_box 10 0 50 100, score := 1 / 2 }
      = (.error Fault.assertion_failed, sample_track_three) ∧
    ∃ t, sample_track_three.add_matched_detection
        (sample_detection (sample_box 10 0 50 100) (1 / 2)) = (.ok (), t) :=
  ⟨(class_mismatch_fault sample_track_three
      { object_class := 2, bounding_box := sample_box 10 0 50 100, score := 1 / 2 }).1
      (by decide),
   (class_mismatch_fault sample_track_three
      (sample_detection (sample_box 10 0 50 100) (1 / 2))).2 rfl⟩


/-! ## Running maximum score -/

/-- Over a completed run the maximum score is folded over the input scores of
the matched detections. -/
theorem run_max_detection_score (calls : List Call) :
    ∀ s t : TrackedDetection, s.run calls = (.ok (), t) →
      t.max_detection_score = (matched_scores calls).foldl max s.max_detection_score := by
  induction calls with
  | nil =>
    intro s t hrun
    rw [TrackedDetection.run] at hrun
    rw [← (Prod.mk.inj hrun).2]
    rfl
  | cons c cs ih =>
    intro s t hrun
    obtain ⟨s1, hcall, hrest⟩ := run_cons_inv s t c cs hrun
    rw [ih s1 t hrest]
    rcases call_ok_inv s s1 c hcall with ⟨x, hc, -, ht⟩ | ⟨b, last, hc, -, -, ht⟩
    · subst ht hc
      rfl
    · subst ht hc
      rfl

/-- C9: in every state reached from the constructor by completed calls,
`max_detection_score` is the maximum of the founding detection's score and the
input scores of the detections passed to `add_matched_detection` so far;
`skip_one_detection` leaves it unchanged, and `add_matched_detection` sets it to
the maximum of its old value and the input score, whatever scores are stored in
the history. -/
theorem running_maximum_score :
    (∀ (id : Int) (d : Detection) (mel : Int) (calls : List Call) (t : TrackedDetection),
      (TrackedDetection.construct id d mel).run calls = (.ok (), t) →
      t.max_detection_score = (matched_scores calls).foldl max d.score) ∧
    (∀ self t : TrackedDetection, self.skip_one_detection = (.ok (), t) →
      t.max_detection_score = self.max_detection_score) ∧
    (∀ (self t : TrackedDetection) (d : Detection), self.add_matched_detection d = (.ok (), t) →
      t.max_detection_score = max self.max_detection_score d.score) := by
  refine ⟨?_, ?_, ?_⟩
  · intro id d mel calls t hrun
    exact run_max_detection_score calls _ t hrun
  · intro self t h
    obtain ⟨b, last, -, -, ht⟩ := skip_ok_inv self t h
    rw [ht]
    rfl
  · intro self t d h
    rw [(add_ok_inv self t d h).2]
    rfl

/-- C9 at the sample run (founding score 0.8, one matched score 0.5, one skip):
the maximum is 0.8, a further skip keeps it and a further match of score 0.9
raises it to 0.9. -/
theorem running_maximum_score_witness :
    sample_track_fresh.run sample_calls_mixed = (.ok (), sample_track_mixed) ∧
    sample_track_mixed.max_detection_score = 4 / 5 ∧
    (∃ t, sample_track_mixed.skip_one_detection = (.ok (), t) ∧ t.max_detection_score = 4 / 5) ∧
    (∃ t, sample_track_mixed.add_matched_detection
        (sample_detection (sample_box 10 0 50 100) (9 / 10)) = (.ok (), t) ∧
      t.max_detection_score = 9 / 10) := by
  have h0 : sample_track_mixed.max_detection_score = 4 / 5 := by
    rw [running_maximum_score.1 7 (sample_detection (sample_box 0 0 40 100) (4 / 5)) 5
      sample_calls_mixed sample_track_mixed sample_run_mixed]
    norm_num [matched_scores, sample_calls_mixed, sample_detection]
  obtain ⟨xm, ym, hm, last, -, -, hskip⟩ := skip_defined sample_track_mixed (by decide) (by decide)
  have hadd := add_of_class sample_track_mixed
    (sample_detection (sample_box 10 0 50 100) (9 / 10)) rfl
  refine ⟨sample_run_mixed, h0, ⟨_, hskip, ?_⟩, ⟨_, hadd, ?_⟩⟩
  · rw [running_maximum_score.2.1 sample_track_mixed _ hskip, h0]
  · rw [running_maximum_score.2.2 sample_track_mixed _ _ hadd, h0]
    norm_num [sample_detection]

/-! ## Append-only history -/

/-- Over a completed run the history is extended by one entry per call. -/
theorem run_history (calls : List Call) :
    ∀ s t : TrackedDetection, s.run calls = (.ok (), t) →
      ∃ later, t.detections_in_time = s.detections_in_time ++ later ∧
        later.length = calls.length := by
  induction calls with
  | nil =>
    intro s t hrun
    rw [TrackedDetection.run] at hrun
    rw [← (Prod.mk.inj hrun).2]
    exact ⟨[], by simp, rfl⟩
  | cons c cs ih =>
    intro s t hrun
    obtain ⟨s1, hcall, hrest⟩ := run_cons_inv s t c cs hrun
    obtain ⟨later, hl, hlen⟩ := ih s1 t hrest
    rcases call_ok_inv s s1 c hcall with ⟨x, -, -, ht⟩ | ⟨b, last, -, -, -, ht⟩
    · subst ht
      refine ⟨{ x with score := reweighted_score s x.score } :: later, ?_, by simp [hlen]⟩
      rw [hl]
      simp [matched]
    · subst ht
      refine ⟨{ object_class := s.object_class, bounding_box := b, score := last.score } :: later,
        ?_, by simp [hlen]⟩
      rw [hl]
      simp [skipped]

/-- C10: each completed call of `add_matched_detection` or `skip_one_detection`
increases `get_length` by exactly 1 and appends one entry after the stored
history, which is kept as it was; after `k` completed calls on a new track the
history has length `1 + k` and starts with the founding detection exactly as
passed to the constructor. -/
theorem append_only_history :
    (∀ (self t : TrackedDetection) (c : Call), self.call c = (.ok (), t) →
      t.get_length = self.get_length + 1 ∧
      ∃ e, t.get_detections_in_time = self.get_detections_in_time ++ [e]) ∧
    (∀ (id : Int) (d : Detection) (mel : Int) (calls : List Call) (t : TrackedDetection),
      (TrackedDetection.construct id d mel).run calls = (.ok (), t) →
      t.get_length = 1 + calls.length ∧
      t.get_detections_in_time[0]? = some d ∧
      ∃ later, t.get_detections_in_time = d :: later) := by
  constructor
  · intro self t c hcall
    rcases call_ok_inv self t c hcall with ⟨x, -, -, ht⟩ | ⟨b, last, -, -, -, ht⟩
    · subst ht
      exact ⟨by simp [TrackedDetection.get_length, matched], _, rfl⟩
    · subst ht
      exact ⟨by simp [TrackedDetection.get_length, skipped], _, rfl⟩
  · intro id d mel calls t hrun
    obtain ⟨later, hl, hlen⟩ := run_history calls _ t hrun
    have hl2 : t.detections_in_time = d :: later := by
      rw [hl]
      rfl
    refine ⟨?_, ?_, later, hl2⟩
    · simp [TrackedDetection.get_length, hl2, hlen]
      omega
    · simp [TrackedDetection.get_detections_in_time, hl2]

/-- C10 at the sample run of two calls: the history has three entries, the
first is the founding detection, and one more skip gives four entries. -/
theorem append_only_history_witness :
    sample_track_fresh.run sample_calls_mixed = (.ok (), sample_track_mixed) ∧
    sample_track_mixed.get_length = 3 ∧
    sample_track_mixed.get_detections_in_time[0]?
      = some (sample_detection (sample_box 0 0 40 100) (4 / 5)) ∧
    (∃ t, sample_track_mixed.call Call.skip_one_detection = (.ok (), t) ∧ t.get_length = 4) := by
  obtain ⟨h1, h2, -⟩ := append_only_history.2 7 (sample_detection (sample_box 0 0 40 100) (4 / 5))
    5 sample_calls_mixed sample_track_mixed sample_run_mixed
  have h3 : sample_track_mixed.get_length = 3 := h1.trans rfl
  obtain ⟨xm, ym, hm, last, -, -, hskip⟩ := skip_defined sample_track_mixed (by decide) (by decide)
  refine ⟨sample_run_mixed, h3, h2, _, hskip, ?_⟩
  rw [(append_only_history.1 sample_track_mixed _ Call.skip_one_detection hskip).1, h3]

/-! ## The motion window -/

theorem motion_of_eq_boxes (base : Detection) (rest : List Detection) :
    motion_of base rest
      = motion_of_boxes base.bounding_box (rest.map (fun e => e.bounding_box)) := by
  simp [motion_of, motion_of_boxes, delta_of, List.map_map, Function.comp_def]

/-- The window is the base entry followed by the entries the loop visits, and
the motions are a function of the boxes of the window. -/
theorem motion_window (self : TrackedDetection)
    (h1 : 1 ≤ self.detections_in_time.length) (h2 : self.detections_in_time.length < 2 ^ 31) :
    ∃ base rest, window_boxes self = base :: rest ∧
      rest.length = num_deltas_of self.detections_in_time.length ∧
      self.motion = .ok (motion_of_boxes base rest) := by
  obtain ⟨d0, hd0, hmot⟩ := motion_eq self h1 h2
  generalize hL : self.detections_in_time.length = L at *
  have hn : num_deltas_of L = min 10 (L - 1) := rfl
  generalize hk : min 10 (L - 1) = n at *
  have hnL : n + 1 ≤ L := by omega
  have hidx : L - n - 1 < self.detections_in_time.length := by omega
  have hget : self.detections_in_time[L - n - 1] = d0 := by
    rw [List.getElem?_eq_getElem hidx] at hd0
    exact Option.some.inj hd0
  refine ⟨d0.bounding_box,
    (self.detections_in_time.drop (L - n)).map (fun e => e.bounding_box), ?_, ?_, ?_⟩
  · unfold window_boxes
    rw [hL, hn, List.drop_eq_getElem_cons hidx, hget, List.map_cons]
    have : L - n - 1 + 1 = L - n := by omega
    rw [this]
  · rw [hn, List.length_map, List.length_drop, hL]
    omega
  · rw [hmot, motion_of_eq_boxes]

/-! ## Extrapolation keeps the score -/

/-- C11: on every track state on which the call is defined (a non-empty history
of fewer than `2^31` entries) `skip_one_detection` completes and appends one
detection whose score is the score stored in the previously last history
entry, whose class is the track's class and whose bounding box is the result
of `compute_extrapolated_bounding_box` on the state before the call. -/
theorem skip_preserves_confidence (self : TrackedDetection)
    (h1 : 1 ≤ self.detections_in_time.length) (h2 : self.detections_in_time.length < 2 ^ 31) :
    ∃ (b : Rectangle) (last : Detection) (t : TrackedDetection),
      self.compute_extrapolated_bounding_box = .ok b ∧
      self.get_current_detection = .ok last ∧
      self.skip_one_detection = (.ok (), t) ∧
      t.detections_in_time = self.detections_in_time ++
        [{ object_class := self.object_class, bounding_box := b, score := last.score }] ∧
      t.get_current_detection
        = .ok { object_class := self.object_class, bounding_box := b, score := last.score } := by
  obtain ⟨xm, ym, hm, last, hmot, hlast, hskip⟩ := skip_defined self h1 h2
  refine ⟨_, last, _, compute_of_motion self xm ym hm hmot, ?_, hskip, rfl, ?_⟩
  · simp [TrackedDetection.get_current_detection, hlast]
  · simp [TrackedDetection.get_current_detection, skipped]

/-- C11 at the three-entry sample track, whose last stored score is `16/15`. -/
theorem skip_preserves_confidence_witness :
    1 ≤ sample_track_three.detections_in_time.length ∧
    sample_track_three.detections_in_time.length < 2 ^ 31 ∧
    ∃ (b : Rectangle) (t : TrackedDetection),
      sample_track_three.compute_extrapolated_bounding_box = .ok b ∧
      sample_track_three.skip_one_detection = (.ok (), t) ∧
      t.get_current_detection = .ok { object_class := 1, bounding_box := b, score := 16 / 15 } := by
  obtain ⟨b, last, t, e1, e2, e3, -, e5⟩ :=
    skip_preserves_confidence sample_track_three (by decide) (by decide)
  have hl : last = sample_detection (sample_box 0 0 40 100) (16 / 15) := by
    simp [TrackedDetection.get_current_detection, sample_track_three] at e2
    exact e2.symm
  refine ⟨by decide, by decide, b, t, e1, e3, ?_⟩
  rw [e5, hl]
  rfl

/-! ## Bounded motion window -/

/-- C16: the window holds `min(10, history_length - 1) + 1`, at most 11, boxes,
and two tracks (each with a non-empty history of fewer than `2^31` entries)
that agree on the boxes of their windows and on `current_bounding_box` get the
same box from `compute_extrapolated_bounding_box`, whatever their older
history, scores, class or counters. -/
theorem bounded_motion_window (a b : TrackedDetection)
    (ha1 : 1 ≤ a.detections_in_time.length) (ha2 : a.detections_in_time.length < 2 ^ 31)
    (hb1 : 1 ≤ b.detections_in_time.length) (hb2 : b.detections_in_time.length < 2 ^ 31)
    (hwin : window_boxes a = window_boxes b)
    (hcur : a.current_bounding_box = b.current_bounding_box) :
    (window_boxes a).length = min 10 (a.detections_in_time.length - 1) + 1 ∧
    (window_boxes a).length ≤ 11 ∧
    ∃ box, a.compute_extrapolated_bounding_box = .ok box ∧
      b.compute_extrapolated_bounding_box = .ok box := by
  obtain ⟨basea, resta, hwa, hla, hma⟩ := motion_window a ha1 ha2
  obtain ⟨baseb, restb, hwb, -, hmb⟩ := motion_window b hb1 hb2
  rw [hwa, hwb] at hwin
  obtain ⟨hbase, hrest⟩ := List.cons.inj hwin
  subst hbase hrest
  have hlen : (window_boxes a).length = min 10 (a.detections_in_time.length - 1) + 1 := by
    rw [hwa, List.length_cons, hla]
    rfl
  refine ⟨hlen, by rw [hlen]; omega, ?_⟩
  rcases hm : motion_of_boxes basea resta with ⟨xm, ym, hm3⟩
  rw [hm] at hma hmb
  refine ⟨_, compute_of_motion a xm ym hm3 hma, ?_⟩
  rw [hcur]
  exact compute_of_motion b xm ym hm3 hmb

/-- C16 at two sample tracks of 12 and 13 entries that share only their last
eleven boxes and the current box. -/
theorem bounded_motion_window_witness :
    window_boxes sample_track_long = window_boxes sample_track_longer ∧
    sample_track_long.detections_in_time.length = 12 ∧
    sample_track_longer.detections_in_time.length = 13 ∧
    (window_boxes sample_track_long).length = 11 ∧
    ∃ box, sample_track_long.compute_extrapolated_bounding_box = .ok box ∧
      sample_track_longer.compute_extrapolated_bounding_box = .ok box := by
  have hw : window_boxes sample_track_long = window_boxes sample_track_longer := by
    simp [window_boxes, num_deltas_of, sample_track_long, sample_track_longer, sample_detection,
      List.replicate]
  obtain ⟨e1, -, e3⟩ := bounded_motion_window sample_track_long sample_track_longer
    (by decide) (by decide) (by decide) (by decide) hw rfl
  exact ⟨hw, by decide, by decide, e1.trans (by decide), e3⟩

/-! ## Stationary tracks -/

theorem dot_zero_left (a : List ℚ) (h : ∀ x ∈ a, x = 0) : ∀ w : List ℚ, dot a w = 0 := by
  induction a with
  | nil => intro w; simp [dot]
  | cons x xs ih =>
    intro w
    cases w with
    | nil => simp [dot]
    | cons y ys =>
      have hx : x = 0 := h x (by simp)
      have hxs := ih (fun z hz => h z (by simp [hz])) ys
      unfold dot at hxs ⊢
      simp [hx, hxs]

/-- The box of the last history entry belongs to the window. -/
theorem last_mem_window_boxes (self : TrackedDetection) (last : Detection)
    (hlast : self.detections_in_time.getLast? = some last) :
    last.bounding_box ∈ window_boxes self := by
  obtain ⟨ys, hys⟩ := List.getLast?_eq_some_iff.mp hlast
  unfold window_boxes
  rw [hys]
  apply List.mem_map_of_mem
  rw [List.drop_append_of_le_length (by simp)]
  simp

/-- When all boxes of the window have the same center and height, the motions
are zero. -/
theorem motion_stationary (self : TrackedDetection) (cx cy h : ℚ)
    (h1 : 1 ≤ self.detections_in_time.length) (h2 : self.detections_in_time.length < 2 ^ 31)
    (hwin : ∀ b ∈ window_boxes self, center_x b = cx ∧ center_y b = cy ∧ height b = h) :
    self.motion = .ok (0, 0, 0) := by
  obtain ⟨base, rest, hw, -, hm⟩ := motion_window self h1 h2
  rw [hw] at hwin
  obtain ⟨bx, by_, bh⟩ := hwin base (by simp)
  rw [hm]
  unfold motion_of_boxes
  simp only []
  rw [dot_zero_left _ (by
      intro x hx
      obtain ⟨b, hb, rfl⟩ := List.mem_map.mp hx
      rw [(hwin b (by simp [hb])).1, bx, sub_self]),
    dot_zero_left _ (by
      intro x hx
      obtain ⟨b, hb, rfl⟩ := List.mem_map.mp hx
      rw [(hwin b (by simp [hb])).2.1, by_, sub_self]),
    dot_zero_left _ (by
      intro x hx
      obtain ⟨b, hb, rfl⟩ := List.mem_map.mp hx
      rw [(hwin b (by simp [hb])).2.2, bh, sub_self])]

/-- On a stationary window whose last box is the current box, of height at
least 5 and width 0.4 times the height, the extrapolated box is the current
box. -/
theorem compute_stationary (self : TrackedDetection) (cx cy h : ℚ)
    (h1 : 1 ≤ self.detections_in_time.length) (h2 : self.detections_in_time.length < 2 ^ 31)
    (hwin : ∀ b ∈ window_boxes self, center_x b = cx ∧ center_y b = cy ∧ height b = h)
    (h5 : 5 ≤ h)
    (hcur : self.detections_in_time.getLast?.map (fun e => e.bounding_box)
      = some self.current_bounding_box)
    (hwidth : width self.current_bounding_box = 2 / 5 * h) :
    self.compute_extrapolated_bounding_box = .ok self.current_bounding_box := by
  have hm := motion_stationary self cx cy h h1 h2 hwin
  rw [compute_of_motion self 0 0 0 hm]
  obtain ⟨last, hlast, hbox⟩ := Option.map_eq_some'.mp hcur
  have hmem := last_mem_window_boxes self last hlast
  rw [hbox] at hmem
  have hh : height self.current_bounding_box = h := (hwin _ hmem).2.2
  have := (extrapolated_bbox_zero_eq_iff self.current_bounding_box).mpr
    ⟨by rw [hh]; exact h5, by rw [hh]; exact hwidth⟩
  rw [this]

/-- C20: when all boxes of the motion window have the same center and the same
height `h ≥ 5`, and the current box (the box of the last history entry) has
width `0.4 * h`, `compute_extrapolated_bounding_box` returns the current box;
and on a new track whose founding box has height at least 5 the box after two
consecutive `skip_one_detection` calls is the box after one. -/
theorem stationary_fixed_point :
    (∀ (self : TrackedDetection) (cx cy h : ℚ),
      1 ≤ self.detections_in_time.length → self.detections_in_time.length < 2 ^ 31 →
      (∀ b ∈ window_boxes self, center_x b = cx ∧ center_y b = cy ∧ height b = h) →
      5 ≤ h →
      self.detections_in_time.getLast?.map (fun e => e.bounding_box)
        = some self.current_bounding_box →
      width self.current_bounding_box = 2 / 5 * h →
      self.compute_extrapolated_bounding_box = .ok self.current_bounding_box) ∧
    (∀ (id : Int) (d : Detection) (mel : Int), 5 ≤ height d.bounding_box →
      ∃ t1 t2, (TrackedDetection.construct id d mel).skip_one_detection = (.ok (), t1) ∧
        t1.skip_one_detection = (.ok (), t2) ∧
        t2.current_bounding_box = t1.current_bounding_box) := by
  refine ⟨compute_stationary, ?_⟩
  intro id d mel h5
  have hm := motion_single (TrackedDetection.construct id d mel) d rfl
  have hs := skip_of_compute _ _ d (compute_of_motion _ 0 0 0 hm) rfl
  obtain ⟨g1, g2, g3, g4⟩ := extrapolated_bbox_geometry d.bounding_box 0 0 0
  rw [add_zero] at g1 g2 g3
  rw [max_eq_left h5] at g3
  have hc := compute_stationary
    (skipped (TrackedDetection.construct id d mel) (extrapolated_bbox d.bounding_box 0 0 0) d.score)
    (center_x d.bounding_box) (center_y d.bounding_box) (height d.bounding_box)
    (by simp [skipped, TrackedDetection.construct])
    (by simp [skipped, TrackedDetection.construct])
    (by
      intro b hb
      simp [window_boxes, num_deltas_of, skipped, TrackedDetection.construct] at hb
      rcases hb with rfl | rfl
      · exact ⟨rfl, rfl, rfl⟩
      · exact ⟨g1, g2, g3⟩)
    h5
    (by simp [skipped, TrackedDetection.construct])
    (by
      show width (extrapolated_bbox d.bounding_box 0 0 0) = _
      rw [g4, g3])
  have hlast : (skipped (TrackedDetection.construct id d mel)
      (extrapolated_bbox d.bounding_box 0 0 0) d.score).detections_in_time.getLast?
      = some { object_class := d.object_class,
               bounding_box := extrapolated_bbox d.bounding_box 0 0 0, score := d.score } := by
    simp [skipped, TrackedDetection.construct]
  exact ⟨_, _, hs, skip_of_compute _ _ _ hc hlast, rfl⟩

/-- C20 at the three-entry sample track, whose boxes are all `(0,0)-(40,100)`,
and at the fresh sample track founded on that box: the extrapolated box is the
current box, and one skip and two skips leave the same box. -/
theorem stationary_fixed_point_witness :
    sample_track_three.compute_extrapolated_bounding_box = .ok (sample_box 0 0 40 100) ∧
    (5 : ℚ) ≤ height (sample_detection (sample_box 0 0 40 100) (4 / 5)).bounding_box ∧
    ∃ t1 t2, sample_track_fresh.skip_one_detection = (.ok (), t1) ∧
      t1.skip_one_detection = (.ok (), t2) ∧
      t2.current_bounding_box = t1.current_bounding_box := by
  have h5 : (5 : ℚ) ≤ height (sample_detection (sample_box 0 0 40 100) (4 / 5)).bounding_box := by
    norm_num [height, sample_detection, sample_box]
  refine ⟨?_, h5, stationary_fixed_point.2 7
    (sample_detection (sample_box 0 0 40 100) (4 / 5)) 5 h5⟩
  exact stationary_fixed_point.1 sample_track_three 20 50 100 (by decide) (by decide)
    (by
      intro b hb
      simp [window_boxes, num_deltas_of, sample_track_three, sample_detection] at hb
      subst hb
      norm_num [center_x, center_y, height, sample_box])
    (by norm_num)
    (by simp [sample_track_three, sample_detection])
    (by norm_num [width, sample_track_three, sample_box])

/-! ## Reachable states -/

/-- A property of every new track that is kept by every completed call holds in
every reachable state. -/
theorem reachable_invariant (P : TrackedDetection → Prop)
    (hinit : ∀ (id : Int) (d : Detection) (mel : Int), P (TrackedDetection.construct id d mel))
    (hstep : ∀ (s : TrackedDetection) (c : Call) (t : TrackedDetection),
      P s → s.call c = (.ok (), t) → P t) :
    ∀ t : TrackedDetection, Reachable t → P t := by
  intro t ⟨id, d, mel, calls, hrun⟩
  exact run_invariant P hstep calls _ t (hinit id d mel) hrun

/-- A completed run followed by a completed call is a completed run. -/
theorem run_concat (calls : List Call) (c : Call) :
    ∀ s0 s t : TrackedDetection, s0.run calls = (.ok (), s) → s.call c = (.ok (), t) →
      s0.run (calls ++ [c]) = (.ok (), t) := by
  induction calls with
  | nil =>
    intro s0 s t hrun hcall
    rw [TrackedDetection.run] at hrun
    rw [(Prod.mk.inj hrun).2]
    simp only [List.nil_append, TrackedDetection.run, hcall]
  | cons c2 cs ih =>
    intro s0 s t hrun hcall
    obtain ⟨s2, hc2, hrest⟩ := run_cons_inv s0 s c2 cs hrun
    rw [List.cons_append, TrackedDetection.run, hc2]
    exact ih s2 s t hrest hcall

/-- A completed call from a reachable state leads to a reachable state. -/
theorem reachable_call (s t : TrackedDetection) (c : Call) (hs : Reachable s)
    (hcall : s.call c = (.ok (), t)) : Reachable t := by
  obtain ⟨id, d, mel, calls, hrun⟩ := hs
  exact ⟨id, d, mel, calls ++ [c], run_concat calls c _ s t hrun hcall⟩

theorem reachable_counters (t : TrackedDetection) (h : Reachable t) : counters_consistent t := by
  refine reachable_invariant counters_consistent ?_ ?_ t h
  · intro id d mel
    simp [counters_consistent, TrackedDetection.construct]
  · intro s c t1 ⟨h1, h2, h3, h4, h5, _⟩ hcall
    rcases call_ok_inv s t1 c hcall with ⟨x, -, -, ht⟩ | ⟨b, last, -, -, -, ht⟩
    · subst ht
      have e0 : (matched s x).detections_in_time.length = s.detections_in_time.length + 1 := by
        simp [matched]
      have e1 : (matched s x).num_extrapolated_detections = 0 := rfl
      have e2 : (matched s x).num_true_detections_in_time
          = s.num_true_detections_in_time + 1 := rfl
      have e3 : (matched s x).num_consecutive_detections
          = s.num_consecutive_detections + 1 := rfl
      exact ⟨by omega, by omega, by omega, by omega, by omega,
        Or.inr (Or.inl ⟨by omega, by omega, by omega⟩)⟩
    · subst ht
      have e0 : (skipped s b last.score).detections_in_time.length
          = s.detections_in_time.length + 1 := by
        simp [skipped]
      have e1 : (skipped s b last.score).num_extrapolated_detections
          = s.num_extrapolated_detections + 1 := rfl
      have e2 : (skipped s b last.score).num_true_detections_in_time
          = s.num_true_detections_in_time := rfl
      have e3 : (skipped s b last.score).num_consecutive_detections = 0 := rfl
      exact ⟨by omega, by omega, by omega, by omega, by omega,
        Or.inr (Or.inr ⟨by omega, by omega, by omega⟩)⟩

/-- The sample state after one match and one skip is reachable. -/
theorem sample_track_mixed_reachable : Reachable sample_track_mixed :=
  ⟨7, sample_detection (sample_box 0 0 40 100) (4 / 5), 5, sample_calls_mixed, sample_run_mixed⟩

/-! ## Streak counters -/

/-- C12: in every reachable state `num_extrapolated_detections` and
`num_consecutive_detections` are not both nonzero; they are both zero exactly
when the history has length 1; and after any completed mutator call exactly
one of them is nonzero. -/
theorem streak_counters_exclusive (t : TrackedDetection) (h : Reachable t) :
    ¬ (t.num_extrapolated_detections ≠ 0 ∧ t.num_consecutive_detections ≠ 0) ∧
    ((t.num_extrapolated_detections = 0 ∧ t.num_consecutive_detections = 0)
      ↔ t.get_length = 1) ∧
    (∀ (c : Call) (t1 : TrackedDetection), t.call c = (.ok (), t1) →
      (t1.num_extrapolated_detections ≠ 0 ∧ t1.num_consecutive_detections = 0) ∨
      (t1.num_extrapolated_detections = 0 ∧ t1.num_consecutive_detections ≠ 0)) := by
  obtain ⟨-, -, -, -, -, hstreak⟩ := reachable_counters t h
  refine ⟨?_, ?_, ?_⟩
  · omega
  · unfold TrackedDetection.get_length
    constructor <;> intro _ <;> omega
  · intro c t1 hcall
    obtain ⟨-, -, -, -, -, hstreak1⟩ := reachable_counters t1 (reachable_call t t1 c h hcall)
    have hlen : t1.detections_in_time.length ≠ 1 := by
      obtain ⟨h1, -⟩ := reachable_counters t h
      rcases call_ok_inv t t1 c hcall with ⟨x, -, -, ht⟩ | ⟨b, last, -, -, -, ht⟩
      · have e0 : (matched t x).detections_in_time.length
            = t.detections_in_time.length + 1 := by simp [matched]
        rw [ht]
        omega
      · have e0 : (skipped t b last.score).detections_in_time.length
            = t.detections_in_time.length + 1 := by simp [skipped]
        rw [ht]
        omega
    omega

/-- C12 at the sample state after one match and one skip: three entries, one
pending extrapolation and no streak of matches; a further match leaves only
the streak of matches nonzero. -/
theorem streak_counters_exclusive_witness :
    Reachable sample_track_mixed ∧
    sample_track_mixed.get_length = 3 ∧
    sample_track_mixed.num_extrapolated_detections = 1 ∧
    sample_track_mixed.num_consecutive_detections = 0 ∧
    ∃ t1, sample_track_mixed.call
        (Call.add_matched_detection (sample_detection (sample_box 10 0 50 100) (1 / 2)))
        = (.ok (), t1) ∧
      t1.num_extrapolated_detections = 0 ∧ t1.num_consecutive_detections ≠ 0 := by
  obtain ⟨-, -, e3⟩ := streak_counters_exclusive sample_track_mixed sample_track_mixed_reachable
  have hcall : sample_track_mixed.call
      (Call.add_matched_detection (sample_detection (sample_box 10 0 50 100) (1 / 2)))
      = (.ok (), matched sample_track_mixed (sample_detection (sample_box 10 0 50 100) (1 / 2))) :=
    add_of_class sample_track_mixed _ rfl
  refine ⟨sample_track_mixed_reachable, by decide, rfl, rfl, _, hcall, rfl, ?_⟩
  rcases e3 _ _ hcall with ⟨hne, -⟩ | ⟨-, hne⟩
  · exact absurd rfl hne
  · exact hne

/-! ## Single-class history -/

/-- C18: in every reachable state every entry of `detections_in_time`, matched
or extrapolated, has the track's `object_class`; a detection of another class
offered to `add_matched_detection` faults and is not stored. -/
theorem single_class_history (t : TrackedDetection) (h : Reachable t) :
    (∀ e ∈ t.get_detections_in_time, e.object_class = t.object_class) ∧
    (∀ x : Detection, x.object_class ≠ t.object_class →
      t.add_matched_detection x = (.error Fault.assertion_failed, t)) := by
  refine ⟨?_, fun x hx => add_of_mismatch t x hx⟩
  refine reachable_invariant
    (fun s => ∀ e ∈ s.get_detections_in_time, e.object_class = s.object_class) ?_ ?_ t h
  · intro id d mel e he
    simp [TrackedDetection.get_detections_in_time, TrackedDetection.construct] at he
    rw [he]
    rfl
  · intro s c t1 hs hcall e he
    rcases call_ok_inv s t1 c hcall with ⟨x, -, hx, ht⟩ | ⟨b, last, -, -, -, ht⟩
    · subst ht
      simp only [TrackedDetection.get_detections_in_time, matched, List.mem_append,
        List.mem_singleton] at he
      rcases he with he | he
      · exact hs e he
      · rw [he]
        exact hx
    · subst ht
      simp only [TrackedDetection.get_detections_in_time, skipped, List.mem_append,
        List.mem_singleton] at he
      rcases he with he | he
      · exact hs e he
      · rw [he]
        rfl

/-- C18 at the sample state after one match and one skip: its three entries
have class 1, the class of the track, and a detection of class 2 is refused. -/
theorem single_class_history_witness :
    Reachable sample_track_mixed ∧
    sample_track_mixed.get_length = 3 ∧
    sample_track_mixed.get_detections_in_time.all
      (fun e => decide (e.object_class = sample_track_mixed.object_class)) = true ∧
    sample_track_mixed.add_matched_detection
        { object_class := 2, bounding_box := sample_box 10 0 50 100, score := 1 / 2 }
      = (.error Fault.assertion_failed, sample_track_mixed) := by
  obtain ⟨e1, e2⟩ := single_class_history sample_track_mixed sample_track_mixed_reachable
  refine ⟨sample_track_mixed_reachable, by decide, ?_, e2 _ (by decide)⟩
  rw [List.all_eq_true]
  intro e he
  exact decide_eq_true (e1 e he)

/-! ## The quantity tested by the gate -/

/-- In a reachable state with fewer than `2^31` entries the conversions in
`get_max_extrapolation_length` are exact. -/
theorem gate_difference_exact (t : TrackedDetection) (h : Reachable t)
    (hfit : t.detections_in_time.length < 2 ^ 31) :
    to_size_t t.num_extrapolated_detections = t.num_extrapolated_detections ∧
    to_size_t ((t.detections_in_time.length : Int) - to_size_t t.num_extrapolated_detections)
      = (t.detections_in_time.length : Int) - t.num_extrapolated_detections ∧
    to_int (to_size_t ((t.detections_in_time.length : Int)
        - to_size_t t.num_extrapolated_detections))
      = (t.detections_in_time.length : Int) - t.num_extrapolated_detections := by
  obtain ⟨h1, h2, h3, -, h5, -⟩ := reachable_counters t h
  have e1 : to_size_t t.num_extrapolated_detections = t.num_extrapolated_detections := by
    rw [to_size_t_eq_mod]
    omega
  have e2 : to_size_t ((t.detections_in_time.length : Int) - t.num_extrapolated_detections)
      = (t.detections_in_time.length : Int) - t.num_extrapolated_detections := by
    rw [to_size_t_eq_mod]
    omega
  refine ⟨e1, by rw [e1, e2], ?_⟩
  rw [e1, e2, to_int_of_range _ (by omega) (by omega)]

/-- C19: in every reachable state (with fewer than `2^31` entries)
`0 ≤ num_extrapolated_detections ≤ history_length - 1`; the unsigned
subtraction in `get_max_extrapolation_length` does not wrap, its value is the
exact difference, at least 1, and `max(1, ...)` leaves it as it is; and
`skip_one_detection` keeps the difference. -/
theorem extrapolation_counter_bounds (t : TrackedDetection) (h : Reachable t)
    (hfit : t.detections_in_time.length < 2 ^ 31) :
    0 ≤ t.num_extrapolated_detections ∧
    t.num_extrapolated_detections ≤ (t.detections_in_time.length : Int) - 1 ∧
    to_size_t ((t.detections_in_time.length : Int) - to_size_t t.num_extrapolated_detections)
      = (t.detections_in_time.length : Int) - t.num_extrapolated_detections ∧
    1 ≤ to_int (to_size_t ((t.detections_in_time.length : Int)
        - to_size_t t.num_extrapolated_detections)) ∧
    max 1 (to_int (to_size_t ((t.detections_in_time.length : Int)
        - to_size_t t.num_extrapolated_detections)))
      = (t.detections_in_time.length : Int) - t.num_extrapolated_detections ∧
    ∃ t1, t.skip_one_detection = (.ok (), t1) ∧
      (t1.detections_in_time.length : Int) - t1.num_extrapolated_detections
        = (t.detections_in_time.length : Int) - t.num_extrapolated_detections := by
  obtain ⟨h1, h2, h3, -, h5, -⟩ := reachable_counters t h
  obtain ⟨-, e2, e3⟩ := gate_difference_exact t h hfit
  obtain ⟨xm, ym, hm, last, -, -, hskip⟩ := skip_defined t h1 hfit
  refine ⟨h2, by omega, e2, by rw [e3]; omega, by rw [e3]; exact max_eq_right (by omega),
    _, hskip, ?_⟩
  simp only [skipped, List.length_append, List.length_singleton]
  push_cast
  ring

/-- C19 at the sample state after one match and one skip: three entries, one
pending extrapolation, difference 2. -/
theorem extrapolation_counter_bounds_witness :
    Reachable sample_track_mixed ∧
    sample_track_mixed.detections_in_time.length < 2 ^ 31 ∧
    max 1 (to_int (to_size_t ((sample_track_mixed.detections_in_time.length : Int)
        - to_size_t sample_track_mixed.num_extrapolated_detections))) = 2 ∧
    ∃ t1, sample_track_mixed.skip_one_detection = (.ok (), t1) ∧
      (t1.detections_in_time.length : Int) - t1.num_extrapolated_detections = 2 := by
  obtain ⟨-, -, -, -, e5, t1, e6, e7⟩ :=
    extrapolation_counter_bounds sample_track_mixed sample_track_mixed_reachable (by decide)
  have hd : (sample_track_mixed.detections_in_time.length : Int)
      - sample_track_mixed.num_extrapolated_detections = 2 := by decide
  exact ⟨sample_track_mixed_reachable, by decide, e5.trans hd, t1, e6, e7.trans hd⟩

/-- A run of matched detections adds their number to
`num_true_detections_in_time`. -/
theorem run_matched_true_count (ds : List Detection) :
    ∀ self t : TrackedDetection,
      self.run (ds.map Call.add_matched_detection) = (.ok (), t) →
      t.num_true_detections_in_time = self.num_true_detections_in_time + ds.length := by
  induction ds with
  | nil =>
    intro self t hrun
    rw [List.map_nil, TrackedDetection.run] at hrun
    rw [← (Prod.mk.inj hrun).2]
    simp
  | cons d ds ih =>
    intro self t hrun
    rw [List.map_cons] at hrun
    obtain ⟨s1, hcall, hrest⟩ := run_cons_inv self t _ _ hrun
    obtain ⟨-, hs1⟩ := add_ok_inv self s1 d hcall
    rw [ih s1 t hrest, hs1]
    simp only [matched, List.length_cons]
    push_cast
    ring

/-- C13 fails as stated.  After one skip and one match on the fresh sample
track the gate tests the quantity 3, while the history holds 2 true detections
(`1 + num_true_detections_in_time = 2`).  After one skip and 29 matches on the
tall sample track the history holds 30 true detections, not more than 30, and
the gate returns the configured budget 5. -/
theorem gate_counts_extrapolated_entries :
    (∃ t, sample_track_fresh.run sample_calls_skip_match = (.ok (), t) ∧
      max 1 (to_int (to_size_t ((t.detections_in_time.length : Int)
        - to_size_t t.num_extrapolated_detections))) = 3 ∧
      1 + t.num_true_detections_in_time = 2) ∧
    (∃ t, sample_track_tall.run sample_calls_skip_then_matches = (.ok (), t) ∧
      1 + t.num_true_detections_in_time = 30 ∧
      t.get_max_extrapolation_length = 5) := by
  constructor
  · have hs := skip_of_compute sample_track_fresh _
      (sample_detection (sample_box 0 0 40 100) (4 / 5))
      (compute_of_motion _ 0 0 0 (motion_single sample_track_fresh _ rfl)) rfl
    have ha := add_of_class (skipped sample_track_fresh
      (extrapolated_bbox sample_track_fresh.current_bounding_box 0 0 0)
      (sample_detection (sample_box 0 0 40 100) (4 / 5)).score)
      (sample_detection (sample_box 10 0 50 100) (1 / 2)) rfl
    refine ⟨matched (skipped sample_track_fresh
      (extrapolated_bbox sample_track_fresh.current_bounding_box 0 0 0)
      (sample_detection (sample_box 0 0 40 100) (4 / 5)).score)
      (sample_detection (sample_box 10 0 50 100) (1 / 2)), ?_, ?_, ?_⟩
    · simp only [sample_calls_skip_match, TrackedDetection.run, TrackedDetection.call, hs, ha]
    · decide
    · decide
  · have hs := skip_of_compute sample_track_tall _
      (sample_detection (sample_box 0 0 52 130) (1 / 2))
      (compute_of_motion _ 0 0 0 (motion_single sample_track_tall _ rfl)) rfl
    obtain ⟨t, hrun, hlen, hnex, -, hmel, hbox⟩ := run_matched
      (List.replicate 29 (sample_detection (sample_box 0 0 52 130) (1 / 2)))
      (skipped sample_track_tall
        (extrapolated_bbox sample_track_tall.current_bounding_box 0 0 0)
        (sample_detection (sample_box 0 0 52 130) (1 / 2)).score)
      (by
        intro x hx
        rw [(List.mem_replicate.mp hx).2]
        rfl)
    have htrue := run_matched_true_count _ _ t hrun
    have hL : t.detections_in_time.length = 31 := by
      rw [hlen]
      simp [skipped, sample_track_tall, TrackedDetection.construct]
    have hnex0 := hnex (by simp)
    have hcur := hbox (sample_detection (sample_box 0 0 52 130) (1 / 2))
      (by simp [List.getLast?_replicate])
    refine ⟨t, ?_, ?_, ?_⟩
    · simp only [sample_calls_skip_then_matches, TrackedDetection.run, TrackedDetection.call, hs]
      exact hrun
    · rw [htrue]
      simp [skipped, sample_track_tall, TrackedDetection.construct]
    · have hh : height (sample_detection (sample_box 0 0 52 130) (1 / 2)).bounding_box = 130 := by
        norm_num [height, sample_detection, sample_box]
      rw [get_max_extrapolation_length_eq t (by rw [hL, hnex0]; norm_num)
        (by rw [hL, hnex0]; norm_num), hL, hnex0, hcur, hmel, hh, nearest_float_130]
      norm_num [skipped, sample_track_tall, TrackedDetection.construct]

/-- C13, amended: in every reachable state (with fewer than `2^31` entries) the
quantity `max(1, history_length - num_extrapolated_detections)` tested by
`get_max_extrapolation_length` is the exact difference
`history_length - num_extrapolated_detections`, the number of history entries
before the pending run of extrapolations; it is at least
`1 + num_true_detections_in_time`, the number of true detections, and a nonzero
budget is returned only when this difference exceeds 30.  On a track built
from matched detections only the difference equals
`1 + num_true_detections_in_time`. -/
theorem gate_counts_history_before_streak :
    (∀ t : TrackedDetection, Reachable t → t.detections_in_time.length < 2 ^ 31 →
      max 1 (to_int (to_size_t ((t.detections_in_time.length : Int)
          - to_size_t t.num_extrapolated_detections)))
        = (t.detections_in_time.length : Int) - t.num_extrapolated_detections ∧
      1 + t.num_true_detections_in_time
        ≤ (t.detections_in_time.length : Int) - t.num_extrapolated_detections ∧
      (t.get_max_extrapolation_length ≠ 0 →
        30 < (t.detections_in_time.length : Int) - t.num_extrapolated_detections)) ∧
    (∀ (id : Int) (d : Detection) (mel : Int) (ds : List Detection),
      (∀ x ∈ ds, x.object_class = d.object_class) →
      ∃ t, (TrackedDetection.construct id d mel).run (ds.map Call.add_matched_detection)
          = (.ok (), t) ∧
        (t.detections_in_time.length : Int) - t.num_extrapolated_detections
          = 1 + t.num_true_detections_in_time) := by
  constructor
  · intro t h hfit
    obtain ⟨h1, h2, h3, -, h5, -⟩ := reachable_counters t h
    obtain ⟨-, -, e3⟩ := gate_difference_exact t h hfit
    refine ⟨by rw [e3]; exact max_eq_right (by omega), by omega, ?_⟩
    intro hne
    rw [get_max_extrapolation_length_eq t (by omega) (by omega)] at hne
    by_cases hc : max 1 ((t.detections_in_time.length : Int) - t.num_extrapolated_detections) > 30
        ∧ nearest_float (height t.current_bounding_box) > 128
    · have := hc.1
      rw [max_eq_right (by omega)] at this
      exact this
    · rw [if_neg hc] at hne
      exact absurd rfl hne
  · intro id d mel ds hall
    obtain ⟨t, hrun, hlen, hnex, -, -, -⟩ :=
      run_matched ds (TrackedDetection.construct id d mel) hall
    have htrue := run_matched_true_count ds _ t hrun
    refine ⟨t, hrun, ?_⟩
    rw [htrue, hlen]
    by_cases hds : ds = []
    · subst hds
      rw [List.map_nil, TrackedDetection.run] at hrun
      rw [← (Prod.mk.inj hrun).2]
      simp [TrackedDetection.construct]
    · rw [hnex hds]
      simp [TrackedDetection.construct]

/-- C13, amended, at the sample state after one match and one skip (three
entries, one pending extrapolation, one match after creation): the tested
quantity is 2, which is `1 + num_true_detections_in_time`, and the budget is 0. -/
theorem gate_counts_history_before_streak_witness :
    Reachable sample_track_mixed ∧
    sample_track_mixed.detections_in_time.length < 2 ^ 31 ∧
    max 1 (to_int (to_size_t ((sample_track_mixed.detections_in_time.length : Int)
        - to_size_t sample_track_mixed.num_extrapolated_detections))) = 2 ∧
    1 + sample_track_mixed.num_true_detections_in_time = 2 ∧
    ∃ t, sample_track_fresh.run
        ([sample_detection (sample_box 10 0 50 100) (1 / 2)].map Call.add_matched_detection)
        = (.ok (), t) ∧
      (t.detections_in_time.length : Int) - t.num_extrapolated_detections
        = 1 + t.num_true_detections_in_time := by
  obtain ⟨e1, -, -⟩ := gate_counts_history_before_streak.1 sample_track_mixed
    sample_track_mixed_reachable (by decide)
  refine ⟨sample_track_mixed_reachable, by decide, e1.trans (by decide), by decide, ?_⟩
  exact gate_counts_history_before_streak.2 7
    (sample_detection (sample_box 0 0 40 100) (4 / 5)) 5
    [sample_detection (sample_box 10 0 50 100) (1 / 2)] (by simp [sample_detection])

/-! ## Observation ratio -/

/-- C15: in every state reached by a completed `add_matched_detection` from a
reachable state, `1 ≤ num_true_detections_in_time ≤ history_length - 1`, so the
ratio `num_true_detections_in_time / history_length` used for the reweighting
lies in `(0, 1]`; the score stored in the last entry is
`max_detection_score * ratio * 2`, and for a non-negative `max_detection_score`
it is at most `2 * max_detection_score`. -/
theorem observation_ratio_bound (s : TrackedDetection) (hs : Reachable s) (x : Detection)
    (t : TrackedDetection) (hadd : s.add_matched_detection x = (.ok (), t)) :
    1 ≤ t.num_true_detections_in_time ∧
    t.num_true_detections_in_time ≤ (t.detections_in_time.length : Int) - 1 ∧
    0 < (t.num_true_detections_in_time : ℚ) / (t.detections_in_time.length : ℚ) ∧
    (t.num_true_detections_in_time : ℚ) / (t.detections_in_time.length : ℚ) ≤ 1 ∧
    ∃ e, t.detections_in_time.getLast? = some e ∧
      e.score = t.max_detection_score *
        ((t.num_true_detections_in_time : ℚ) / (t.detections_in_time.length : ℚ)) * 2 ∧
      (0 ≤ t.max_detection_score → e.score ≤ 2 * t.max_detection_score) := by
  obtain ⟨h1, h2, h3, -, h5, -⟩ := reachable_counters s hs
  obtain ⟨-, ht⟩ := add_ok_inv s t x hadd
  subst ht
  have e0 : (matched s x).detections_in_time.length = s.detections_in_time.length + 1 := by
    simp [matched]
  have e2 : (matched s x).num_true_detections_in_time
      = s.num_true_detections_in_time + 1 := rfl
  have hnt1 : 1 ≤ (matched s x).num_true_detections_in_time := by omega
  have hntL : (matched s x).num_true_detections_in_time
      ≤ ((matched s x).detections_in_time.length : Int) - 1 := by omega
  have hLpos : (0 : ℚ) < ((matched s x).detections_in_time.length : ℚ) := by
    rw [e0]
    push_cast
    positivity
  have hntq : (1 : ℚ) ≤ ((matched s x).num_true_detections_in_time : ℚ) := by
    exact_mod_cast hnt1
  have hleq : ((matched s x).num_true_detections_in_time : ℚ)
      ≤ ((matched s x).detections_in_time.length : ℚ) := by
    have : (matched s x).num_true_detections_in_time
        ≤ ((matched s x).detections_in_time.length : Int) := by omega
    exact_mod_cast this
  have hr0 : 0 < ((matched s x).num_true_detections_in_time : ℚ)
      / ((matched s x).detections_in_time.length : ℚ) := div_pos (by linarith) hLpos
  have hr1 : ((matched s x).num_true_detections_in_time : ℚ)
      / ((matched s x).detections_in_time.length : ℚ) ≤ 1 := (div_le_one hLpos).mpr hleq
  refine ⟨hnt1, hntL, hr0, hr1,
    { x with score := reweighted_score s x.score }, by simp [matched], ?_, ?_⟩
  · simp only [reweighted_score, matched, List.length_append, List.length_singleton]
  · intro hM
    have hscore : reweighted_score s x.score = (matched s x).max_detection_score *
        (((matched s x).num_true_detections_in_time : ℚ)
          / ((matched s x).detections_in_time.length : ℚ)) * 2 := by
      simp only [reweighted_score, matched, List.length_append, List.length_singleton]
    show reweighted_score s x.score ≤ _
    rw [hscore]
    nlinarith [mul_le_mul_of_nonneg_left hr1 hM]

/-- C15 at the sample state after one match and one skip, matched once more:
two matches in four entries, ratio `1/2`, stored score `0.8 * (1/2) * 2 = 0.8`,
at most `2 * 0.8`. -/
theorem observation_ratio_bound_witness :
    Reachable sample_track_mixed ∧
    ∃ t e, sample_track_mixed.add_matched_detection
        (sample_detection (sample_box 10 0 50 100) (1 / 2)) = (.ok (), t) ∧
      t.num_true_detections_in_time = 2 ∧ t.detections_in_time.length = 4 ∧
      t.detections_in_time.getLast? = some e ∧
      e.score ≤ 2 * t.max_detection_score := by
  have hadd := add_of_class sample_track_mixed
    (sample_detection (sample_box 10 0 50 100) (1 / 2)) rfl
  obtain ⟨-, -, -, -, e, he, -, hle⟩ := observation_ratio_bound sample_track_mixed
    sample_track_mixed_reachable _ _ hadd
  refine ⟨sample_track_mixed_reachable, _, e, hadd, by decide, by decide, he, hle ?_⟩
  norm_num [matched, sample_track_mixed, skipped, sample_track_fresh,
    TrackedDetection.construct, sample_detection]

/-! ## Weights -/

theorem weights_sum (n : Nat) (s : ℚ) :
    (weights n s).sum = ((n : ℚ) * ((n : ℚ) + 1) / 2) / s := by
  unfold weights
  induction n with
  | zero => simp
  | succ k ih =>
    rw [List.range_succ, List.map_append, List.sum_append, ih]
    simp only [List.map_cons, List.map_nil, List.sum_cons, List.sum_nil]
    push_cast
    ring

/-- C14: for every `num_deltas = n ≥ 1` (in particular `1 ≤ n ≤ 10`) the weights
computed at lines 193-197 are `w_i = i / (2*n*(n+1))` for `i = 1..n` (stored at
position `i - 1`); they are strictly increasing, so the newest delta is the
heaviest, they sum to exactly `1/4`, and each is `1/4` of the triangular weight
`i / (n*(n+1)/2)`. -/
theorem weight_normalisation (n : Nat) (h1 : 1 ≤ n) :
    weights n ((((n : Int) * ((n : Int) + 1) : Int) : ℚ) / (1 / 2))
      = (List.range n).map (fun i : Nat => ((i : ℚ) + 1) / (2 * (n : ℚ) * ((n : ℚ) + 1))) ∧
    (weights n ((((n : Int) * ((n : Int) + 1) : Int) : ℚ) / (1 / 2))).sum = 1 / 4 ∧
    List.Pairwise (fun a b => a < b)
      (weights n ((((n : Int) * ((n : Int) + 1) : Int) : ℚ) / (1 / 2))) ∧
    (∀ i, i < n →
      (weights n ((((n : Int) * ((n : Int) + 1) : Int) : ℚ) / (1 / 2)))[i]?
        = some (1 / 4 * (((i : ℚ) + 1) / ((n : ℚ) * ((n : ℚ) + 1) / 2)))) ∧
    (weights n ((((n : Int) * ((n : Int) + 1) : Int) : ℚ) / (1 / 2))).getLast?
      = some ((n : ℚ) / (2 * (n : ℚ) * ((n : ℚ) + 1))) := by
  have hn : (0 : ℚ) < (n : ℚ) := by exact_mod_cast h1
  have hs : ((((n : Int) * ((n : Int) + 1) : Int) : ℚ) / (1 / 2))
      = 2 * (n : ℚ) * ((n : ℚ) + 1) := by
    push_cast
    ring
  have hpos : (0 : ℚ) < 2 * (n : ℚ) * ((n : ℚ) + 1) := by positivity
  rw [hs]
  refine ⟨rfl, ?_, ?_, ?_, ?_⟩
  · rw [weights_sum]
    field_simp
    ring
  · unfold weights
    rw [List.pairwise_map]
    refine (List.pairwise_lt_range n).imp ?_
    intro a b hab
    have : (a : ℚ) < (b : ℚ) := by exact_mod_cast hab
    exact div_lt_div_of_pos_right (by linarith) hpos
  · intro i hi
    unfold weights
    rw [List.getElem?_map, List.getElem?_range hi]
    simp only [Option.map_some']
    congr 1
    field_simp
    ring
  · unfold weights
    obtain ⟨k, rfl⟩ : ∃ k, n = k + 1 := ⟨n - 1, by omega⟩
    rw [List.range_succ, List.map_append, List.getLast?_append]
    simp

/-- C14 for `num_deltas = 2`, where `sum_value = 2*3/0.5 = 12`: the weights are
`1/12` and `2/12`, and their sum is `1/4`. -/
theorem weight_normalisation_witness :
    weights 2 12 = [1 / 12, 1 / 6] ∧ (weights 2 12).sum = 1 / 4 := by
  obtain ⟨e1, e2, -⟩ := weight_normalisation 2 (by decide)
  have hs : ((((2 : Nat) : Int) * (((2 : Nat) : Int) + 1) : Int) : ℚ) / (1 / 2) = 12 := by
    norm_num
  rw [hs] at e1 e2
  refine ⟨?_, e2⟩
  rw [e1]
  norm_num [List.range_succ]

/-! ## Non-empty history and in-bounds access -/

/-- C17: in every reachable state the history has at least one entry, so
`back()` is defined: `get_current_detection` returns an entry and (on a history
of fewer than `2^31` entries) `compute_extrapolated_bounding_box` and
`skip_one_detection` complete.  With `num_detections` the history length and
`num_deltas = min(10, num_detections - 1)`, the base index
`num_detections - num_deltas - 1` and every loop index `i` with
`num_detections - num_deltas ≤ i < num_detections` lie in
`[0, history_length)` and address an entry; `sum_value` is nonzero when
`num_deltas ≥ 1`, and no weight is computed when `num_deltas = 0`. -/
theorem history_nonempty_in_bounds (t : TrackedDetection) (h : Reachable t)
    (hfit : t.detections_in_time.length < 2 ^ 31) :
    1 ≤ t.get_length ∧
    (∃ d, t.get_current_detection = .ok d) ∧
    (∃ b, t.compute_extrapolated_bounding_box = .ok b) ∧
    (∃ t1, t.skip_one_detection = (.ok (), t1)) ∧
    (∀ num_detections num_deltas : Int,
      num_detections = to_int (t.detections_in_time.length : Int) →
      num_deltas = min 10 (num_detections - 1) →
      num_detections = (t.detections_in_time.length : Int) ∧
      0 ≤ num_deltas ∧
      (0 ≤ num_detections - num_deltas - 1 ∧
        num_detections - num_deltas - 1 < (t.detections_in_time.length : Int) ∧
        ∃ d0, vector_at t.detections_in_time (num_detections - num_deltas - 1) = some d0) ∧
      (∀ i : Int, num_detections - num_deltas ≤ i → i < num_detections →
        0 ≤ i ∧ i < (t.detections_in_time.length : Int) ∧
        ∃ e, vector_at t.detections_in_time i = some e) ∧
      (1 ≤ num_deltas → ((num_deltas * (num_deltas + 1) : Int) : ℚ) / (1 / 2) ≠ 0) ∧
      (num_deltas = 0 →
        weights num_deltas.toNat (((num_deltas * (num_deltas + 1) : Int) : ℚ) / (1 / 2)) = [])) := by
  obtain ⟨h1, -⟩ := reachable_counters t h
  obtain ⟨xm, ym, hm, last, hmot, hlast, hskip⟩ := skip_defined t h1 hfit
  have hat : ∀ i : Int, 0 ≤ i → i < (t.detections_in_time.length : Int) →
      ∃ e, vector_at t.detections_in_time i = some e := by
    intro i hi0 hiL
    have hlt : i.toNat < t.detections_in_time.length := by omega
    exact ⟨t.detections_in_time[i.toNat], by
      unfold vector_at
      rw [if_pos hi0, List.getElem?_eq_getElem hlt]⟩
  refine ⟨h1, ⟨last, by simp [TrackedDetection.get_current_detection, hlast]⟩,
    ⟨_, compute_of_motion t xm ym hm hmot⟩, ⟨_, hskip⟩, ?_⟩
  intro num_detections num_deltas hnd hdel
  rw [to_int_of_range _ (by omega) (by omega)] at hnd
  subst hnd
  refine ⟨rfl, by omega, ⟨by omega, by omega, hat _ (by omega) (by omega)⟩, ?_, ?_, ?_⟩
  · intro i hlo hhi
    exact ⟨by omega, hhi, hat i (by omega) hhi⟩
  · intro hpos
    have hq : (1 : ℚ) ≤ (num_deltas : ℚ) := by exact_mod_cast hpos
    push_cast
    have : (0 : ℚ) < (num_deltas : ℚ) * ((num_deltas : ℚ) + 1) := by positivity
    positivity
  · intro h0
    rw [h0]
    rfl

/-- C17 at the sample state after one match and one skip (three entries,
`num_deltas = 2`): the base index 0 and the loop indices 1 and 2 address
entries, and `sum_value = 12`. -/
theorem history_nonempty_in_bounds_witness :
    Reachable sample_track_mixed ∧
    sample_track_mixed.detections_in_time.length < 2 ^ 31 ∧
    sample_track_mixed.get_length = 3 ∧
    (∃ d, sample_track_mixed.get_current_detection = .ok d) ∧
    (∃ t1, sample_track_mixed.skip_one_detection = (.ok (), t1)) ∧
    (∃ d0, vector_at sample_track_mixed.detections_in_time (3 - 2 - 1) = some d0) ∧
    (∃ e, vector_at sample_track_mixed.detections_in_time 2 = some e) ∧
    (((2 * (2 + 1) : Int) : ℚ) / (1 / 2) ≠ 0) := by
  obtain ⟨-, e2, -, e4, e5⟩ :=
    history_nonempty_in_bounds sample_track_mixed sample_track_mixed_reachable (by decide)
  obtain ⟨-, -, ⟨-, -, e6⟩, e7, e8, -⟩ := e5 3 2 (by decide) (by decide)
  exact ⟨sample_track_mixed_reachable, by decide, by decide, e2, e4, e6,
    (e7 2 (by decide) (by decide)).2.2, e8 (by decide)⟩

end doppia
